import Mathlib

/-!
# Hand-detect video filter: the per-frame fist tracker

A shallow embedding of `gst_handdetect_transform_ip`
(`src/gsthanddetect_so/gsthanddetect.c`, lines 470-608) and of the parts of the
element state it reads and writes.

Modelling conventions.

* A C `int` is a Lean `Int`.  The sums and differences the code computes in
  `int` (`r->x - prev_r->x`, `width + height`) go through `int_wrap`: a result
  outside the 32-bit range wraps around, as on the two's-complement targets the
  element is built for.  Where the source converts to an unsigned 32-bit
  integer (`guint`, `uint`) the conversion is a reduction modulo `2 ^ 32`.
  `CvRect.wf` says that the four fields of a rectangle are values of `int`.
* A `double` is modelled by the rational number it holds.  `pow (d, 2)`, the
  sum and `sqrt` return the double nearest to the exact result (IEEE 754
  binary64, ties to even): `round_double`, `sqrt_double`.  The cast `(int)`
  discards the fractional part; out of range it gives `INT_MIN`, the result of
  the x86 conversion instruction.  `CvRect.in_range` bounds the corner of a
  rectangle so that all of this is exact and nothing wraps: for such rectangles
  `distance` is the floor of the exact Euclidean distance
  (`distance_eq_floor_distance`).
* A `CvRect *` is modelled, for the duration of one call, by the rectangle the
  call reads through it (`none` is `NULL`).  `prev_r` and `best_r` point into
  the detector storage, which every call clears (line 488) and refills
  (line 496) before line 526 reads `prev_r`: the rectangle read through a
  pointer kept from an earlier call is an input of the call and is not carried
  from one call to the next by the embedding.  Dereferencing `NULL` aborts the
  call: the per-frame function returns `none`.
* The detector (`cvHaarDetectObjects`), the rounding helper `cvRound` and the
  drawing routine `cvCircle` belong to OpenCV.  The detector result is the input
  `hands`; `cvRound` and `cvCircle` are parameters.
* Calls that have an effect outside the element (`gst_element_post_message`,
  `cvCircle`) are recorded, in order, in the `Output` of the call.
-/

namespace Handdetect

/-- OpenCV `CvRect`: four C `int` fields. -/
structure CvRect where
  x : Int
  y : Int
  width : Int
  height : Int
deriving DecidableEq, Repr

/-- OpenCV `CvPoint`: two C `int` fields. -/
structure CvPoint where
  x : Int
  y : Int
deriving DecidableEq, Repr

/-- OpenCV constructor `cvRect (x, y, width, height)`. -/
def cvRect (x y width height : Int) : CvRect := ⟨x, y, width, height⟩

/-- OpenCV constructor `cvPoint (x, y)`. -/
def cvPoint (x y : Int) : CvPoint := ⟨x, y⟩

/-- The fields of the rectangle are values of the C type `int` (32 bits). -/
def CvRect.wf (r : CvRect) : Prop :=
  (-(2 : Int) ^ 31 ≤ r.x ∧ r.x < 2 ^ 31) ∧ (-(2 : Int) ^ 31 ≤ r.y ∧ r.y < 2 ^ 31) ∧
  (-(2 : Int) ^ 31 ≤ r.width ∧ r.width < 2 ^ 31) ∧
  (-(2 : Int) ^ 31 ≤ r.height ∧ r.height < 2 ^ 31)

instance (r : CvRect) : Decidable r.wf := by
  unfold CvRect.wf
  infer_instance

/-- The top-left corner of the rectangle has coordinates of absolute value at
most `2 ^ 24 = 16777216`.  Between two such rectangles the coordinate
differences do not overflow `int`, and their squares and the sum of the squares
are below `2 ^ 52`, so `pow`, the sum and `sqrt` of line 526 are exact up to the
final rounding of the square root. -/
def CvRect.in_range (r : CvRect) : Prop :=
  (-16777216 ≤ r.x ∧ r.x ≤ 16777216) ∧ (-16777216 ≤ r.y ∧ r.y ≤ 16777216)

instance (r : CvRect) : Decidable r.in_range := by
  unfold CvRect.in_range
  infer_instance

/-- A `CvRect *` as one call sees it: `none` for `NULL`, otherwise the rectangle
the call reads through the pointer. -/
abbrev CvRectPtr := Option CvRect

/-- The fields of `GstHanddetect` used by the per-frame function.
`roi_x .. roi_height` are `guint` properties (range `0 .. UINT_MAX`),
`cvCascade` records whether the fist classifier pointer is non-`NULL`,
`image_width`, `image_height` are `cvImage->width`, `cvImage->height`,
`prev_r` and `best_r` are the two rectangle pointers. -/
structure GstHanddetect where
  display : Bool
  roi_x : Nat
  roi_y : Nat
  roi_width : Nat
  roi_height : Nat
  cvCascade : Bool
  image_width : Int
  image_height : Int
  prev_r : CvRectPtr
  best_r : CvRectPtr
deriving DecidableEq, Repr

/-- The structure `detected_hand_info` posted on the bus:
`gesture` (string) and `x`, `y`, `width`, `height` (`G_TYPE_UINT`). -/
structure Message where
  gesture : String
  x : Nat
  y : Nat
  width : Nat
  height : Nat
deriving DecidableEq, Repr

/-- The arguments `center`, `radius` of one call of `cvCircle` on `cvImage`. -/
structure Circle where
  center : CvPoint
  radius : Int
deriving DecidableEq, Repr

/-- What one call of the per-frame function does outside the element: the
messages given to `gst_element_post_message` and the `cvCircle` calls. -/
structure Output where
  posted : List Message
  drawn : List Circle
deriving DecidableEq, Repr

/-- Conversion of a C `int` to `guint` / `uint` (value modulo `2 ^ 32`). -/
def to_uint (i : Int) : Nat := (i % 2 ^ 32).toNat

/-- Sum of two `guint` values (wraps modulo `2 ^ 32`). -/
def uint_add (a b : Nat) : Nat := (a + b) % 2 ^ 32

/-- The value of an `int` sum or difference whose exact result is `i`: `i`
itself when it lies in `INT_MIN .. INT_MAX = -2147483648 .. 2147483647`,
otherwise `i` reduced modulo `2 ^ 32 = 4294967296` into that range. -/
def int_wrap (i : Int) : Int := (i + 2147483648) % 4294967296 - 2147483648

/-- Discarding the fractional part of a `double` (rounding toward zero). -/
def trunc (v : ℚ) : Int := if 0 ≤ v then Rat.floor v else -Rat.floor (-v)

/-- The cast `(uint) v` of a `double`: the fractional part is discarded.  For an
integral part outside `0 .. UINT_MAX` the C result is not defined; the model
reduces it modulo `2 ^ 32`. -/
def double_to_uint (v : ℚ) : Nat := to_uint (trunc v)

/-- The cast `(int) v` of a `double`: the fractional part is discarded.  For an
integral part outside `INT_MIN .. INT_MAX` the C result is not defined; the
model gives `INT_MIN`, as the x86 conversion does. -/
def double_to_int (v : ℚ) : Int :=
  if -2147483648 ≤ trunc v ∧ trunc v < 2147483648 then trunc v else -2147483648

/-- The double nearest to the natural number `n` (ties to even).  Below `2 ^ 53`
every natural number is a double; from there on a double is a multiple of
`2 ^ e` with `e = log2 n - 52`. -/
def round_double (n : Nat) : Nat :=
  if n < 2 ^ 53 then n
  else
    let e := Nat.log2 n - 52
    let q := n / 2 ^ e
    let r := n % 2 ^ e
    if 2 ^ e < 2 * r ∨ (2 * r = 2 ^ e ∧ q % 2 = 1) then (q + 1) * 2 ^ e else q * 2 ^ e

/-- The function `sqrt` on a double holding the natural number `s`: the double
nearest to the exact square root.  With `t = 52 - log2 (floor (sqrt s))` the
doubles around the root are the multiples of `2 ^ (-t)`; `q` is the root scaled
by `2 ^ t` and rounded down, and it is rounded up when the scaled root lies
above `q + 1/2`, that is when `q * q + q < s * 4 ^ t`. -/
def sqrt_double (s : Nat) : ℚ :=
  let t := 52 - Nat.log2 (Nat.sqrt s)
  let q := Nat.sqrt (s * 4 ^ t)
  (((if q * q + q < s * 4 ^ t then q + 1 else q : Nat) : ℚ)) / ((2 ^ t : Nat) : ℚ)

/-- The expression `(int) sqrt (pow (r->x - prev_r->x, 2) + pow (r->y - prev_r->y, 2))`
of lines 526-527: two `int` differences, their squares as doubles (`pow (d, 2)`
taken as the double nearest to `d * d`), the sum of the squares as a double, its
square root as a double, and the cast to `int`. -/
def distance (r prev_r : CvRect) : Int :=
  double_to_int (sqrt_double (round_double
    (round_double (int_wrap (r.x - prev_r.x) * int_wrap (r.x - prev_r.x)).toNat +
      round_double (int_wrap (r.y - prev_r.y) * int_wrap (r.y - prev_r.y)).toNat)))

/-- The `for` loop of lines 524-532 over the remaining elements of `hands`,
carrying the locals `min_distance` and `filter->best_r`; `prev_r` is the
rectangle read through `filter->prev_r`. -/
def best_fist_loop (prev_r : CvRect) :
    List CvRect → Int → Option CvRect → Int × Option CvRect
  | [], min_distance, best_r => (min_distance, best_r)
  | r :: rest, min_distance, best_r =>
    if distance r prev_r ≤ min_distance then
      best_fist_loop prev_r rest (distance r prev_r) (some r)
    else
      best_fist_loop prev_r rest min_distance best_r

/-- The center point `c` of lines 539-540 (C integer division truncates). -/
def center_point (best_r : CvRect) : CvPoint :=
  cvPoint (best_r.x + Int.tdiv best_r.width 2) (best_r.y + Int.tdiv best_r.height 2)

/-- The condition of the `if` of lines 544-549.  `c.x`, `c.y` are `int`, the
region fields are `guint`, so every comparison is done on unsigned values and
`roi_x + roi_width`, `roi_y + roi_height` are unsigned sums. -/
def roi_gate (filter : GstHanddetect) (c : CvPoint) : Bool :=
  (decide (to_uint c.x ≥ filter.roi_x)
      && decide (to_uint c.x ≤ uint_add filter.roi_x filter.roi_width)
      && decide (to_uint c.y ≥ filter.roi_y)
      && decide (to_uint c.y ≤ uint_add filter.roi_y filter.roi_height))
    || (decide (filter.roi_x = 0)
      && decide (filter.roi_y = 0)
      && decide (filter.roi_width = 0) && decide (filter.roi_height = 0))

/-- The structure built by `gst_structure_new` in lines 551-558. -/
def detected_hand_info (best_r : CvRect) : Message :=
  { gesture := "fist"
    x := double_to_uint ((best_r.x : ℚ) + (best_r.width : ℚ) * 0.5)
    y := double_to_uint ((best_r.y : ℚ) + (best_r.height : ℚ) * 0.5)
    width := to_uint best_r.width
    height := to_uint best_r.height }

/-- The circle of lines 596-602.  The arguments of `cvRound` are doubles:
`x + width * 0.5` and `y + height * 0.5` are computed in `double`, the sum
`width + height` of line 601 is computed in `int` before it is multiplied by
`0.25`.  What `cvRound` returns is stored in `int` variables: the value of the
parameter is taken in the `int` range. -/
def marker (cvRound : ℚ → Int) (best_r : CvRect) : Circle :=
  { center :=
      { x := int_wrap (cvRound ((best_r.x : ℚ) + (best_r.width : ℚ) * 0.5))
        y := int_wrap (cvRound ((best_r.y : ℚ) + (best_r.height : ℚ) * 0.5)) }
    radius := int_wrap (cvRound ((int_wrap (best_r.width + best_r.height) : ℚ) * 0.25)) }

/-- Lines 517-535 of `gst_handdetect_transform_ip`, run when `hands` has at least
one element: `min_distance` is seeded with the `int` sum of the frame width and
height, a `NULL` `prev_r` is pointed at `temp_r = cvRect (0, 0, 0, 0)`, the loop
runs, and `best_r` is saved as `prev_r`.  `filter.prev_r` and `filter.best_r`
are what this call reads through the two pointers; the result holds what the
pointers lead to at line 535 of this call. -/
def track_fist (filter : GstHanddetect) (hands : List CvRect) : GstHanddetect :=
  let min_distance := int_wrap (filter.image_width + filter.image_height)
  let temp_r := cvRect 0 0 0 0
  let prev_r := filter.prev_r.getD temp_r
  let best_r := (best_fist_loop prev_r hands min_distance filter.best_r).2
  { filter with best_r := best_r, prev_r := best_r }

/-- The per-frame function `gst_handdetect_transform_ip`, lines 494-607.
`hands` is what `cvHaarDetectObjects` returns for the frame when it is called
(`none` for a `NULL` sequence).  The result is `none` when `filter->best_r` is
`NULL` at line 539.  Lines 481-488 (pointing `cvImage` at the buffer, the
grayscale conversion into `cvGray`, clearing the storage) and lines 505-509
(`gst_buffer_make_writable`) write neither the pixels of the frame nor
`prev_r`, `best_r`, and have no counterpart here. -/
def gst_handdetect_transform_ip (cvRound : ℚ → Int) (filter : GstHanddetect)
    (hands : Option (List CvRect)) : Option (GstHanddetect × Output) :=
  if filter.cvCascade then
    match hands with
    | some (r0 :: rest) =>
      let filter := track_fist filter (r0 :: rest)
      match filter.best_r with
      | none => none
      | some best_r =>
        some (filter,
          { posted :=
              if roi_gate filter (center_point best_r) then [detected_hand_info best_r]
              else []
            drawn := if filter.display then [marker cvRound best_r] else [] })
    | _ => some (filter, { posted := [], drawn := [] })
  else
    some (filter, { posted := [], drawn := [] })

/-- The element after `gst_handdetect_init` and `gst_handdetect_set_caps`:
the region is all zero, `display` is `TRUE`, both rectangle pointers are `NULL`;
`loaded` says whether `gst_handdetect_load_profile` obtained the fist cascade. -/
def gst_handdetect_init (loaded : Bool) (in_width in_height : Int) : GstHanddetect :=
  { display := true
    roi_x := 0
    roi_y := 0
    roi_width := 0
    roi_height := 0
    cvCascade := loaded
    image_width := in_width
    image_height := in_height
    prev_r := none
    best_r := none }

/-- The messages posted by a call (none when the call aborted at line 539,
which is before the message is built). -/
def posted_by (result : Option (GstHanddetect × Output)) : List Message :=
  match result with
  | none => []
  | some (_, out) => out.posted

/-- The `cvCircle` calls made by a call (none when the call aborted). -/
def drawn_by (result : Option (GstHanddetect × Output)) : List Circle :=
  match result with
  | none => []
  | some (_, out) => out.drawn

/-- The candidate sequence of a frame: the elements of `hands`, none for `NULL`. -/
def candidates (hands : Option (List CvRect)) : List CvRect := hands.getD []

/-- The pixel contents of the frame after the call: the recorded `cvCircle`
calls applied in order to the contents before it. -/
def frame_after {Img : Type} (cvCircle : Img → Circle → Img) (img : Img)
    (out : Output) : Img :=
  out.drawn.foldl cvCircle img

/-- The squared Euclidean distance between the top-left corners. -/
def sq_distance (r prev_r : CvRect) : Int :=
  (r.x - prev_r.x) ^ 2 + (r.y - prev_r.y) ^ 2

/-- The truncated distance as the claims word it:
`floor (sqrt ((r.x - prev.x)^2 + (r.y - prev.y)^2))` over the integers. -/
def floor_distance (r prev_r : CvRect) : Int := Int.sqrt (sq_distance r prev_r)

/-- The previous target the loop compares with: the rectangle read through
`prev_r`, or `{0, 0, 0, 0}` while `prev_r` is `NULL`. -/
def previous_target (filter : GstHanddetect) : CvRect :=
  filter.prev_r.getD (cvRect 0 0 0 0)

/-- The `int` sum `width + height` of line 517 does not overflow. -/
def seed_in_range (filter : GstHanddetect) : Prop :=
  -2147483648 ≤ filter.image_width + filter.image_height ∧
    filter.image_width + filter.image_height < 2147483648

instance (filter : GstHanddetect) : Decidable (seed_in_range filter) := by
  unfold seed_in_range
  infer_instance

/-- The element of a 160 x 120 stream whose stored target is `{600,400,40,40}`
(a target found before the stream was renegotiated to the smaller size). -/
def far_target_filter : GstHanddetect :=
  { gst_handdetect_init true 160 120 with
    prev_r := some (cvRect 600 400 40 40)
    best_r := some (cvRect 600 400 40 40) }

/-- The interval condition of the region of interest as the specification
words it: `cx` within `[roi.x, roi.x + roi.width]` and `cy` within
`[roi.y, roi.y + roi.height]`, both ends inclusive, over the integers. -/
def in_region_spec (filter : GstHanddetect) (c : CvPoint) : Prop :=
  ((filter.roi_x : Int) ≤ c.x ∧ c.x ≤ (filter.roi_x : Int) + (filter.roi_width : Int)) ∧
    ((filter.roi_y : Int) ≤ c.y ∧ c.y ≤ (filter.roi_y : Int) + (filter.roi_height : Int))

instance (filter : GstHanddetect) (c : CvPoint) : Decidable (in_region_spec filter c) := by
  unfold in_region_spec
  infer_instance

/-- The region of interest is the default `(0,0,0,0)`. -/
def roi_unset (filter : GstHanddetect) : Prop :=
  filter.roi_x = 0 ∧ filter.roi_y = 0 ∧ filter.roi_width = 0 ∧ filter.roi_height = 0

instance (filter : GstHanddetect) : Decidable (roi_unset filter) := by
  unfold roi_unset
  infer_instance

/-- An element with the region of interest set through the `ROI_X`, `ROI_Y`,
`ROI_WIDTH`, `ROI_HEIGHT` properties of a 320 x 240 stream. -/
def roi_filter (roi_x roi_y roi_width roi_height : Nat) : GstHanddetect :=
  { gst_handdetect_init true 320 240 with
    roi_x := roi_x
    roi_y := roi_y
    roi_width := roi_width
    roi_height := roi_height }

/-- The top-left corner of the rectangle lies in the frame `[0, width] x [0, height]`. -/
def in_frame (filter : GstHanddetect) (r : CvRect) : Prop :=
  (0 ≤ r.x ∧ r.x ≤ filter.image_width) ∧ (0 ≤ r.y ∧ r.y ≤ filter.image_height)

instance (filter : GstHanddetect) (r : CvRect) : Decidable (in_frame filter r) := by
  unfold in_frame
  infer_instance

/-- The integer nearest to `v`, a value halfway between two integers going to
the even one. -/
def round_half_even (v : ℚ) : Int :=
  if v - (Rat.floor v : ℚ) < 1 / 2 then Rat.floor v
  else if 1 / 2 < v - (Rat.floor v : ℚ) then Rat.floor v + 1
  else if Rat.floor v % 2 = 0 then Rat.floor v
  else Rat.floor v + 1

/-- OpenCV `cvRound` as built with `lrint` or `cvtsd2si`: the nearest integer, a
value halfway between two integers going to the even one; the result is an
`int`, and `INT_MIN` when the nearest integer is not one. -/
def cvRound_lrint (v : ℚ) : Int :=
  if -2147483648 ≤ round_half_even v ∧ round_half_even v < 2147483648 then round_half_even v
  else -2147483648

/-- The contract of OpenCV `cvRound`: the result is an `int`, and for an
argument between `INT_MIN` and `INT_MAX` it is an integer nearest to the
argument. -/
def rounds_to_nearest (cvRound : ℚ → Int) : Prop :=
  ∀ v : ℚ, (-2147483648 ≤ cvRound v ∧ cvRound v < 2147483648) ∧
    (-2147483648 ≤ v → v ≤ 2147483647 → |((cvRound v : Int) : ℚ) - v| ≤ 1 / 2)

/-- The frame qualifies for a message: the detector is loaded, `hands` has an
element, and the target selected by `track_fist` passes the gate. -/
def qualifying_frame (filter : GstHanddetect) (hands : Option (List CvRect)) : Bool :=
  filter.cvCascade && !(candidates hands).isEmpty &&
    (match (track_fist filter (candidates hands)).best_r with
      | none => false
      | some best_r => roi_gate filter (center_point best_r))

/-- The element of a 320 x 240 stream whose stored target is `{300,200,20,20}`. -/
def corner_target_filter : GstHanddetect :=
  { gst_handdetect_init true 320 240 with
    prev_r := some (cvRect 300 200 20 20)
    best_r := some (cvRect 300 200 20 20) }

/-- The element at the second frame of a 320 x 240 stream whose first frame
selected element 0 of its sequence: both pointers hold the address of that
element, and `stored` is the rectangle line 526 finds there now. -/
def second_frame_filter (stored : CvRect) : GstHanddetect :=
  { gst_handdetect_init true 320 240 with
    prev_r := some stored
    best_r := some stored }

/-! ## The selection loop -/

theorem best_fist_loop_append (prev_r : CvRect) (l1 l2 : List CvRect) (m : Int)
    (b : Option CvRect) :
    best_fist_loop prev_r (l1 ++ l2) m b =
      best_fist_loop prev_r l2 (best_fist_loop prev_r l1 m b).1
        (best_fist_loop prev_r l1 m b).2 := by
  induction l1 generalizing m b with
  | nil => rfl
  | cons r rest ih =>
    simp only [List.cons_append, best_fist_loop]
    split <;> exact ih _ _

theorem best_fist_loop_fst_le (prev_r : CvRect) (l : List CvRect) (m : Int)
    (b : Option CvRect) : (best_fist_loop prev_r l m b).1 ≤ m := by
  induction l generalizing m b with
  | nil => exact le_refl _
  | cons r rest ih =>
    simp only [best_fist_loop]
    split
    · exact le_trans (ih _ _) (by assumption)
    · exact ih _ _

theorem best_fist_loop_fst_le_mem (prev_r : CvRect) (l : List CvRect) (m : Int)
    (b : Option CvRect) (r : CvRect) (hr : r ∈ l) :
    (best_fist_loop prev_r l m b).1 ≤ distance r prev_r := by
  induction l generalizing m b with
  | nil => cases hr
  | cons a rest ih =>
    simp only [best_fist_loop]
    rcases List.mem_cons.mp hr with h | h
    · subst h
      split
      · exact best_fist_loop_fst_le _ _ _ _
      · rename_i hgt
        exact le_trans (best_fist_loop_fst_le _ _ _ _) (le_of_lt (not_le.mp hgt))
    · split <;> exact ih _ _ h

theorem best_fist_loop_rejects (prev_r : CvRect) (l : List CvRect) (m : Int)
    (b : Option CvRect) (h : ∀ r ∈ l, m < distance r prev_r) :
    best_fist_loop prev_r l m b = (m, b) := by
  induction l generalizing m b with
  | nil => rfl
  | cons a rest ih =>
    have ha : ¬ distance a prev_r ≤ m := not_le.mpr (h a (List.mem_cons_self _ _))
    simp only [best_fist_loop, if_neg ha]
    exact ih _ _ (fun r hr => h r (List.mem_cons_of_mem _ hr))

theorem best_fist_loop_accepts (prev_r : CvRect) (l : List CvRect) (m : Int)
    (b : Option CvRect) (h : ∃ r ∈ l, distance r prev_r ≤ m) :
    ∃ best ∈ l, (best_fist_loop prev_r l m b).2 = some best ∧
      (best_fist_loop prev_r l m b).1 = distance best prev_r := by
  induction l generalizing m b with
  | nil => obtain ⟨r, hr, _⟩ := h; cases hr
  | cons a rest ih =>
    simp only [best_fist_loop]
    by_cases ha : distance a prev_r ≤ m
    · simp only [if_pos ha]
      by_cases hrest : ∃ r ∈ rest, distance r prev_r ≤ distance a prev_r
      · obtain ⟨best, hmem, h2, h1⟩ := ih (distance a prev_r) (some a) hrest
        exact ⟨best, List.mem_cons_of_mem _ hmem, h2, h1⟩
      · have hrej : ∀ r ∈ rest, distance a prev_r < distance r prev_r := by
          intro r hr
          by_contra hn
          exact hrest ⟨r, hr, not_lt.mp hn⟩
        rw [best_fist_loop_rejects prev_r rest _ _ hrej]
        exact ⟨a, List.mem_cons_self _ _, rfl, rfl⟩
    · simp only [if_neg ha]
      obtain ⟨r, hr, hle⟩ := h
      rcases List.mem_cons.mp hr with h' | h'
      · subst h'; exact absurd hle ha
      · obtain ⟨best, hmem, h2, h1⟩ := ih m b ⟨r, h', hle⟩
        exact ⟨best, List.mem_cons_of_mem _ hmem, h2, h1⟩

theorem best_fist_loop_fst_cases (prev_r : CvRect) (l : List CvRect) (m : Int)
    (b : Option CvRect) :
    (best_fist_loop prev_r l m b).1 = m ∨
      ∃ r ∈ l, (best_fist_loop prev_r l m b).1 = distance r prev_r := by
  by_cases h : ∃ r ∈ l, distance r prev_r ≤ m
  · obtain ⟨best, hmem, _, h1⟩ := best_fist_loop_accepts prev_r l m b h
    exact Or.inr ⟨best, hmem, h1⟩
  · left
    have hrej : ∀ r ∈ l, m < distance r prev_r := by
      intro r hr
      by_contra hn
      exact h ⟨r, hr, not_lt.mp hn⟩
    rw [best_fist_loop_rejects prev_r l m b hrej]

theorem best_fist_loop_last_wins (prev_r : CvRect) (l1 l2 : List CvRect) (a : CvRect)
    (m : Int) (b : Option CvRect) (ha : distance a prev_r ≤ m)
    (h1 : ∀ r ∈ l1, distance a prev_r ≤ distance r prev_r)
    (h2 : ∀ r ∈ l2, distance a prev_r < distance r prev_r) :
    best_fist_loop prev_r (l1 ++ a :: l2) m b = (distance a prev_r, some a) := by
  rw [best_fist_loop_append]
  have hle : distance a prev_r ≤ (best_fist_loop prev_r l1 m b).1 := by
    rcases best_fist_loop_fst_cases prev_r l1 m b with h | ⟨r, hr, h⟩
    · rw [h]; exact ha
    · rw [h]; exact h1 r hr
  simp only [best_fist_loop, if_pos hle]
  exact best_fist_loop_rejects prev_r l2 _ _ h2

/-! ## The distance of line 526 -/

theorem int_wrap_of_int (i : Int) (h1 : -2147483648 ≤ i) (h2 : i < 2147483648) :
    int_wrap i = i := by
  unfold int_wrap
  omega

theorem sqrt_mul_sq_div (s a : Nat) (ha : 0 < a) : Nat.sqrt (s * (a * a)) / a = Nat.sqrt s := by
  have h1 : Nat.sqrt s * a ≤ Nat.sqrt (s * (a * a)) := by
    rw [Nat.le_sqrt]
    have := Nat.sqrt_le s
    calc Nat.sqrt s * a * (Nat.sqrt s * a) = (Nat.sqrt s * Nat.sqrt s) * (a * a) := by ring
      _ ≤ s * (a * a) := Nat.mul_le_mul_right _ this
  have h2 : Nat.sqrt (s * (a * a)) < (Nat.sqrt s + 1) * a := by
    rw [Nat.sqrt_lt]
    have := Nat.lt_succ_sqrt s
    calc s * (a * a) < (Nat.sqrt s + 1) * (Nat.sqrt s + 1) * (a * a) :=
          Nat.mul_lt_mul_of_pos_right this (Nat.mul_pos ha ha)
      _ = (Nat.sqrt s + 1) * a * ((Nat.sqrt s + 1) * a) := by ring
  apply Nat.div_eq_of_lt_le
  · rw [Nat.mul_comm] at h1; rw [Nat.mul_comm]; exact h1
  · exact h2

theorem trunc_natCast_div (m a : Nat) : trunc ((m : ℚ) / (a : ℚ)) = ((m / a : Nat) : Int) := by
  have h0 : (0 : ℚ) ≤ (m : ℚ) / (a : ℚ) := by positivity
  unfold trunc
  rw [if_pos h0]
  have e : ((m : ℚ) / (a : ℚ)) = (((m : Int) : ℚ) / ((a : ℕ) : ℚ)) := by push_cast; rfl
  show ⌊(m : ℚ) / (a : ℚ)⌋ = _
  rw [e, Rat.floor_intCast_div_natCast]
  norm_cast

theorem sqrt_double_floor (s : Nat) (hs : s < 2 ^ 52) :
    double_to_int (sqrt_double s) = (Nat.sqrt s : Int) := by
  have hk : Nat.sqrt s < 2 ^ 26 := by
    rw [Nat.sqrt_lt]
    calc s < 2 ^ 52 := hs
      _ = 2 ^ 26 * 2 ^ 26 := by norm_num
  have hka : Nat.sqrt s + 1 ≤ 2 ^ (52 - Nat.log2 (Nat.sqrt s)) := by
    by_cases h0 : Nat.sqrt s = 0
    · rw [h0]
      exact Nat.one_le_two_pow
    · have h1 : Nat.log2 (Nat.sqrt s) < 26 := (Nat.log2_lt h0).mpr hk
      have h2 : Nat.sqrt s < 2 ^ (Nat.log2 (Nat.sqrt s) + 1) := Nat.lt_log2_self
      calc Nat.sqrt s + 1 ≤ 2 ^ (Nat.log2 (Nat.sqrt s) + 1) := h2
        _ ≤ 2 ^ (52 - Nat.log2 (Nat.sqrt s)) := Nat.pow_le_pow_right (by decide) (by omega)
  unfold sqrt_double
  simp only
  generalize 52 - Nat.log2 (Nat.sqrt s) = t at hka ⊢
  have h4 : (4 : Nat) ^ t = 2 ^ t * 2 ^ t := by
    rw [← Nat.mul_pow]
  rw [h4]
  generalize 2 ^ t = a at hka ⊢
  have ha : 0 < a := by omega
  have hdiv := sqrt_mul_sq_div s a ha
  have hq1 : Nat.sqrt s * a ≤ Nat.sqrt (s * (a * a)) := by
    rw [Nat.le_sqrt]
    have := Nat.sqrt_le s
    calc Nat.sqrt s * a * (Nat.sqrt s * a) = (Nat.sqrt s * Nat.sqrt s) * (a * a) := by ring
      _ ≤ s * (a * a) := Nat.mul_le_mul_right _ this
  have hq2 : Nat.sqrt (s * (a * a)) < (Nat.sqrt s + 1) * a := by
    rw [Nat.sqrt_lt]
    have := Nat.lt_succ_sqrt s
    calc s * (a * a) < (Nat.sqrt s + 1) * (Nat.sqrt s + 1) * (a * a) :=
          Nat.mul_lt_mul_of_pos_right this (Nat.mul_pos ha ha)
      _ = (Nat.sqrt s + 1) * a * ((Nat.sqrt s + 1) * a) := by ring
  have hN : s * (a * a) + a * a ≤ (Nat.sqrt s + 1) * a * ((Nat.sqrt s + 1) * a) := by
    have := Nat.lt_succ_sqrt s
    have h' : s + 1 ≤ (Nat.sqrt s + 1) * (Nat.sqrt s + 1) := this
    calc s * (a * a) + a * a = (s + 1) * (a * a) := by ring
      _ ≤ (Nat.sqrt s + 1) * (Nat.sqrt s + 1) * (a * a) := Nat.mul_le_mul_right _ h'
      _ = (Nat.sqrt s + 1) * a * ((Nat.sqrt s + 1) * a) := by ring
  have hm : (if Nat.sqrt (s * (a * a)) * Nat.sqrt (s * (a * a)) + Nat.sqrt (s * (a * a)) <
      s * (a * a) then Nat.sqrt (s * (a * a)) + 1 else Nat.sqrt (s * (a * a))) / a =
      Nat.sqrt s := by
    split_ifs with hr
    · have hBle : (Nat.sqrt s + 1) * a ≤ a * a := Nat.mul_le_mul_right a hka
      apply Nat.div_eq_of_lt_le
      · omega
      · by_contra hcon
        have hB : Nat.sqrt (s * (a * a)) + 1 = (Nat.sqrt s + 1) * a := by omega
        generalize Nat.sqrt (s * (a * a)) = q at hr hB hq1 hq2
        generalize (Nat.sqrt s + 1) * a = B at hN hB hBle
        have hlt : a * a < B := by
          subst hB
          nlinarith
        omega
    · exact hdiv
  rw [show (((if Nat.sqrt (s * (a * a)) * Nat.sqrt (s * (a * a)) + Nat.sqrt (s * (a * a)) <
      s * (a * a) then Nat.sqrt (s * (a * a)) + 1 else Nat.sqrt (s * (a * a)) : Nat) : ℚ)) /
      ((a : Nat) : ℚ) = _ from rfl]
  unfold double_to_int
  rw [trunc_natCast_div, hm]
  have : ((Nat.sqrt s : Nat) : Int) < 2147483648 := by
    have : Nat.sqrt s < 2147483648 := by
      calc Nat.sqrt s < 2 ^ 26 := hk
        _ < 2147483648 := by norm_num
    exact_mod_cast this
  rw [if_pos ⟨by omega, this⟩]

theorem round_double_of_lt (n : Nat) (h : n < 2 ^ 53) : round_double n = n := by
  unfold round_double
  rw [if_pos h]

theorem sq_toNat_le (d : Int) (h1 : -33554432 ≤ d) (h2 : d ≤ 33554432) :
    (d * d).toNat ≤ 2 ^ 50 := by
  rw [Int.toNat_le]
  have : d * d ≤ 33554432 * 33554432 := by nlinarith
  calc d * d ≤ 33554432 * 33554432 := this
    _ = ((2 ^ 50 : Nat) : Int) := by norm_num

theorem distance_eq_floor_distance (r prev_r : CvRect) (hr : r.in_range)
    (hp : prev_r.in_range) : distance r prev_r = floor_distance r prev_r := by
  obtain ⟨⟨rx1, rx2⟩, ⟨ry1, ry2⟩⟩ := hr
  obtain ⟨⟨px1, px2⟩, ⟨py1, py2⟩⟩ := hp
  have wx : int_wrap (r.x - prev_r.x) = r.x - prev_r.x :=
    int_wrap_of_int _ (by omega) (by omega)
  have wy : int_wrap (r.y - prev_r.y) = r.y - prev_r.y :=
    int_wrap_of_int _ (by omega) (by omega)
  have bx := sq_toNat_le (r.x - prev_r.x) (by omega) (by omega)
  have by_ := sq_toNat_le (r.y - prev_r.y) (by omega) (by omega)
  have p53 : (2 : Nat) ^ 50 < 2 ^ 53 := by norm_num
  have p52 : (2 : Nat) ^ 50 + 2 ^ 50 < 2 ^ 52 := by norm_num
  have p53' : (2 : Nat) ^ 50 + 2 ^ 50 < 2 ^ 53 := by norm_num
  have e1 := round_double_of_lt ((r.x - prev_r.x) * (r.x - prev_r.x)).toNat (by omega)
  have e2 := round_double_of_lt ((r.y - prev_r.y) * (r.y - prev_r.y)).toNat (by omega)
  have e3 := round_double_of_lt (((r.x - prev_r.x) * (r.x - prev_r.x)).toNat +
    ((r.y - prev_r.y) * (r.y - prev_r.y)).toNat) (by omega)
  unfold distance
  rw [wx, wy, e1, e2, e3, sqrt_double_floor _ (by omega)]
  unfold floor_distance sq_distance Int.sqrt
  have e : ((r.x - prev_r.x) ^ 2 + (r.y - prev_r.y) ^ 2).toNat =
      ((r.x - prev_r.x) * (r.x - prev_r.x)).toNat +
        ((r.y - prev_r.y) * (r.y - prev_r.y)).toNat := by
    rw [sq, sq, Int.toNat_add (mul_self_nonneg _) (mul_self_nonneg _)]
  rw [e]

theorem log2_eq_of_bounds (n k : Nat) (h1 : 2 ^ k ≤ n) (h2 : n < 2 ^ (k + 1)) :
    Nat.log2 n = k := by
  have h0 : n ≠ 0 := by
    have : 0 < 2 ^ k := Nat.two_pow_pos k
    omega
  have a := (Nat.le_log2 h0).mpr h1
  have b := (Nat.log2_lt h0).mpr h2
  omega

theorem round_double_eval (n e : Nat) (h1 : 2 ^ (e + 52) ≤ n) (h2 : n < 2 ^ (e + 53))
    (he : 0 < e) :
    round_double n =
      if 2 ^ e < 2 * (n % 2 ^ e) ∨ (2 * (n % 2 ^ e) = 2 ^ e ∧ (n / 2 ^ e) % 2 = 1) then
        (n / 2 ^ e + 1) * 2 ^ e
      else n / 2 ^ e * 2 ^ e := by
  have hl : Nat.log2 n = e + 52 := log2_eq_of_bounds n (e + 52) h1 h2
  have h53 : ¬ n < 2 ^ 53 := by
    have : 2 ^ 53 ≤ 2 ^ (e + 52) := Nat.pow_le_pow_right (by decide) (by omega)
    omega
  unfold round_double
  rw [if_neg h53]
  simp only [hl, Nat.add_sub_cancel]

theorem sqrt_double_eval (s k e q : Nat) (hk1 : k * k ≤ s) (hk2 : s < (k + 1) * (k + 1))
    (he1 : 2 ^ e ≤ k) (he2 : k < 2 ^ (e + 1))
    (hq1 : q * q ≤ s * 4 ^ (52 - e)) (hq2 : s * 4 ^ (52 - e) < (q + 1) * (q + 1)) :
    sqrt_double s =
      (((if q * q + q < s * 4 ^ (52 - e) then q + 1 else q : Nat) : ℚ)) /
        ((2 ^ (52 - e) : Nat) : ℚ) := by
  have hk : Nat.sqrt s = k := (Nat.eq_sqrt.mpr ⟨hk1, hk2⟩).symm
  have hl : Nat.log2 k = e := log2_eq_of_bounds k e he1 he2
  have hq : Nat.sqrt (s * 4 ^ (52 - e)) = q := (Nat.eq_sqrt.mpr ⟨hq1, hq2⟩).symm
  unfold sqrt_double
  simp only [hk, hl, hq]

theorem double_to_int_natCast_div (m a : Nat) :
    double_to_int ((m : ℚ) / (a : ℚ)) =
      if m / a < 2147483648 then ((m / a : Nat) : Int) else -2147483648 := by
  unfold double_to_int
  rw [trunc_natCast_div]
  by_cases h : m / a < 2147483648
  · have h' : ((m / a : Nat) : Int) < 2147483648 := by exact_mod_cast h
    have h0 : (0 : Int) ≤ ((m / a : Nat) : Int) := Int.natCast_nonneg _
    rw [if_pos h, if_pos ⟨le_trans (by norm_num) h0, h'⟩]
  · have h' : ¬ ((m / a : Nat) : Int) < 2147483648 := by
      intro hc
      exact h (by exact_mod_cast hc)
    rw [if_neg h, if_neg (fun hc => h' hc.2)]

theorem floor_distance_eq_of_bounds (r prev_r : CvRect) (q : Nat)
    (h1 : (q : Int) * q ≤ sq_distance r prev_r)
    (h2 : sq_distance r prev_r < ((q : Int) + 1) * ((q : Int) + 1)) :
    floor_distance r prev_r = q := by
  unfold floor_distance Int.sqrt
  unfold sq_distance at h1 h2 ⊢
  have h0 : (0 : Int) ≤ (r.x - prev_r.x) ^ 2 + (r.y - prev_r.y) ^ 2 := by positivity
  obtain ⟨n, hn⟩ := Int.eq_ofNat_of_zero_le h0
  rw [hn] at h1 h2 ⊢
  rw [Int.toNat_ofNat]
  have h1' : q * q ≤ n := by exact_mod_cast h1
  have h2' : n < (q + 1) * (q + 1) := by exact_mod_cast h2
  have := (Nat.eq_sqrt (n := n) (a := q)).mpr ⟨h1', h2'⟩
  rw [← this]

theorem distance_eq_of_bounds (r prev_r : CvRect) (q : Nat)
    (h1 : (q : Int) * q ≤ sq_distance r prev_r)
    (h2 : sq_distance r prev_r < ((q : Int) + 1) * ((q : Int) + 1))
    (hr : r.in_range) (hp : prev_r.in_range) :
    distance r prev_r = q := by
  rw [distance_eq_floor_distance r prev_r hr hp]
  exact floor_distance_eq_of_bounds r prev_r q h1 h2

theorem sq_distance_nonneg (r prev_r : CvRect) : 0 ≤ sq_distance r prev_r := by
  unfold sq_distance
  positivity

/-- Two candidates whose truncated distances are ordered have exact Euclidean
distances that differ by less than one. -/
theorem real_distance_lt_add_one (a b prev_r : CvRect)
    (h : floor_distance a prev_r ≤ floor_distance b prev_r) :
    Real.sqrt ((sq_distance a prev_r : Int) : ℝ) <
      Real.sqrt ((sq_distance b prev_r : Int) : ℝ) + 1 := by
  obtain ⟨m, hm⟩ := Int.eq_ofNat_of_zero_le (sq_distance_nonneg a prev_r)
  obtain ⟨n, hn⟩ := Int.eq_ofNat_of_zero_le (sq_distance_nonneg b prev_r)
  have hda : floor_distance a prev_r = (Nat.sqrt m : Int) := by
    unfold floor_distance
    rw [hm]; rfl
  have hdb : floor_distance b prev_r = (Nat.sqrt n : Int) := by
    unfold floor_distance
    rw [hn]; rfl
  rw [hda, hdb] at h
  have hmn : Nat.sqrt m ≤ Nat.sqrt n := by exact_mod_cast h
  rw [hm, hn]
  have h1 : Real.sqrt ((m : Int) : ℝ) < (Nat.sqrt m : ℝ) + 1 := by
    have hlt : m < (Nat.sqrt m + 1) ^ 2 := by
      have := Nat.lt_succ_sqrt m
      simpa [Nat.succ_eq_add_one, sq] using this
    have hpos : (0 : ℝ) < (Nat.sqrt m : ℝ) + 1 := by positivity
    rw [Real.sqrt_lt' hpos]
    have : ((m : Int) : ℝ) = (m : ℝ) := by norm_cast
    rw [this]
    exact_mod_cast hlt
  have h2 : (Nat.sqrt n : ℝ) ≤ Real.sqrt ((n : Int) : ℝ) := by
    apply Real.le_sqrt_of_sq_le
    have hle : Nat.sqrt n ^ 2 ≤ n := by
      have := Nat.sqrt_le n
      simpa [sq] using this
    have : ((n : Int) : ℝ) = (n : ℝ) := by norm_cast
    rw [this]
    exact_mod_cast hle
  have h3 : (Nat.sqrt m : ℝ) ≤ (Nat.sqrt n : ℝ) := by exact_mod_cast hmn
  linarith

theorem seed_eq_of_in_range (filter : GstHanddetect) (h : seed_in_range filter) :
    int_wrap (filter.image_width + filter.image_height) =
      filter.image_width + filter.image_height :=
  int_wrap_of_int _ h.1 h.2

theorem track_fist_best_r (filter : GstHanddetect) (hands : List CvRect) :
    (track_fist filter hands).best_r =
      (best_fist_loop (previous_target filter) hands
        (int_wrap (filter.image_width + filter.image_height)) filter.best_r).2 := rfl

theorem track_fist_prev_r (filter : GstHanddetect) (hands : List CvRect) :
    (track_fist filter hands).prev_r = (track_fist filter hands).best_r := rfl

theorem track_fist_single (filter : GstHanddetect) (r : CvRect)
    (h : distance r (previous_target filter) ≤
      int_wrap (filter.image_width + filter.image_height)) :
    (track_fist filter [r]).best_r = some r := by
  rw [track_fist_best_r]
  simp only [best_fist_loop, if_pos h]

/-! ## Target selection (C1 - C3) -/

/-- C1 (counterexample).  From the initial state of a 320 x 240 stream the
candidates `{3,0,20,20}`, `{3,1,20,20}` have exact distances `√9` and `√10` from
`{0,0,0,0}`; both truncate to 3 and the loop keeps the second one, so the
chosen rectangle is not a candidate of least exact Euclidean distance. -/
theorem selection_not_exact_minimum :
    (track_fist (gst_handdetect_init true 320 240)
        [cvRect 3 0 20 20, cvRect 3 1 20 20]).best_r = some (cvRect 3 1 20 20) ∧
      ¬ Real.sqrt ((sq_distance (cvRect 3 1 20 20) (cvRect 0 0 0 0) : Int) : ℝ) ≤
          Real.sqrt ((sq_distance (cvRect 3 0 20 20) (cvRect 0 0 0 0) : Int) : ℝ) := by
  have d1 : distance (cvRect 3 0 20 20) (cvRect 0 0 0 0) = 3 :=
    distance_eq_of_bounds _ _ 3 (by decide) (by decide) (by decide) (by decide)
  have d2 : distance (cvRect 3 1 20 20) (cvRect 0 0 0 0) = 3 :=
    distance_eq_of_bounds _ _ 3 (by decide) (by decide) (by decide) (by decide)
  have hp : previous_target (gst_handdetect_init true 320 240) = cvRect 0 0 0 0 := rfl
  have hle1 : (3 : Int) ≤ int_wrap ((gst_handdetect_init true 320 240).image_width +
      (gst_handdetect_init true 320 240).image_height) := by decide
  have hle2 : (3 : Int) ≤ (3 : Int) := le_refl _
  constructor
  · rw [track_fist_best_r]
    simp only [best_fist_loop, hp, d1, d2, if_pos hle1, if_pos hle2]
  · have e1 : sq_distance (cvRect 3 1 20 20) (cvRect 0 0 0 0) = 10 := by decide
    have e2 : sq_distance (cvRect 3 0 20 20) (cvRect 0 0 0 0) = 9 := by decide
    rw [e1, e2, not_le]
    apply Real.sqrt_lt_sqrt <;> norm_num

/-- C1 (amended).  For every element state (previous target, frame size) and
every candidate sequence with at least two rectangles, where the corners of the
previous target and of the candidates have coordinates of absolute value at
most `2 ^ 24`, the `int` sum `width + height` does not overflow, and one
candidate lies within the seed `width + height`: the rectangle the loop leaves
in `best_r` is a candidate whose truncated distance `floor (sqrt (dx² + dy²))`
from the previous target is at most that of every candidate; its exact
Euclidean distance is therefore less than one above any other candidate's. -/
theorem selection_minimises_truncated_distance (filter : GstHanddetect)
    (hands : List CvRect) (_hlen : 2 ≤ hands.length)
    (hrange : ∀ r ∈ hands, r.in_range) (hprev : (previous_target filter).in_range)
    (hint : seed_in_range filter)
    (hseed : ∃ r ∈ hands,
      floor_distance r (previous_target filter) ≤ filter.image_width + filter.image_height) :
    ∃ best ∈ hands, (track_fist filter hands).best_r = some best ∧
      ∀ r ∈ hands,
        floor_distance best (previous_target filter) ≤
            floor_distance r (previous_target filter) ∧
          Real.sqrt ((sq_distance best (previous_target filter) : Int) : ℝ) <
            Real.sqrt ((sq_distance r (previous_target filter) : Int) : ℝ) + 1 := by
  have hd : ∀ r ∈ hands, distance r (previous_target filter) =
      floor_distance r (previous_target filter) :=
    fun r hr => distance_eq_floor_distance r _ (hrange r hr) hprev
  have hseed' : ∃ r ∈ hands, distance r (previous_target filter) ≤
      int_wrap (filter.image_width + filter.image_height) := by
    obtain ⟨r, hr, hle⟩ := hseed
    exact ⟨r, hr, by rw [hd r hr, seed_eq_of_in_range filter hint]; exact hle⟩
  obtain ⟨best, hmem, hbest, hmin⟩ :=
    best_fist_loop_accepts (previous_target filter) hands
      (int_wrap (filter.image_width + filter.image_height)) filter.best_r hseed'
  refine ⟨best, hmem, hbest, ?_⟩
  intro r hr
  have hle : floor_distance best (previous_target filter) ≤
      floor_distance r (previous_target filter) := by
    have h1 := best_fist_loop_fst_le_mem (previous_target filter) hands
      (int_wrap (filter.image_width + filter.image_height)) filter.best_r r hr
    rw [hmin, hd best hmem, hd r hr] at h1
    exact h1
  exact ⟨hle, real_distance_lt_add_one _ _ _ hle⟩

/-- C1 (witness): previous target `{0,0,0,0}`, frame 320 x 240, candidates
`{100,100,20,20}`, `{10,10,20,20}`: the second one is selected. -/
theorem selection_minimises_truncated_distance_witness :
    (track_fist (gst_handdetect_init true 320 240)
        [cvRect 100 100 20 20, cvRect 10 10 20 20]).best_r = some (cvRect 10 10 20 20) ∧
      ∃ best ∈ [cvRect 100 100 20 20, cvRect 10 10 20 20],
        (track_fist (gst_handdetect_init true 320 240)
          [cvRect 100 100 20 20, cvRect 10 10 20 20]).best_r = some best ∧
        ∀ r ∈ [cvRect 100 100 20 20, cvRect 10 10 20 20],
          floor_distance best (previous_target (gst_handdetect_init true 320 240)) ≤
              floor_distance r (previous_target (gst_handdetect_init true 320 240)) ∧
            Real.sqrt ((sq_distance best
                (previous_target (gst_handdetect_init true 320 240)) : Int) : ℝ) <
              Real.sqrt ((sq_distance r
                (previous_target (gst_handdetect_init true 320 240)) : Int) : ℝ) + 1 := by
  have d1 : distance (cvRect 100 100 20 20) (cvRect 0 0 0 0) = 141 :=
    distance_eq_of_bounds _ _ 141 (by decide) (by decide) (by decide) (by decide)
  have d2 : distance (cvRect 10 10 20 20) (cvRect 0 0 0 0) = 14 :=
    distance_eq_of_bounds _ _ 14 (by decide) (by decide) (by decide) (by decide)
  have f2 : floor_distance (cvRect 10 10 20 20) (cvRect 0 0 0 0) = 14 :=
    floor_distance_eq_of_bounds _ _ 14 (by decide) (by decide)
  have hp : previous_target (gst_handdetect_init true 320 240) = cvRect 0 0 0 0 := rfl
  have hle1 : (141 : Int) ≤
      int_wrap ((gst_handdetect_init true 320 240).image_width +
        (gst_handdetect_init true 320 240).image_height) := by decide
  have hle2 : (14 : Int) ≤ (141 : Int) := by decide
  refine ⟨?_, ?_⟩
  · rw [track_fist_best_r]
    simp only [best_fist_loop, hp, d1, d2, if_pos hle1, if_pos hle2]
  · exact selection_minimises_truncated_distance (gst_handdetect_init true 320 240)
      [cvRect 100 100 20 20, cvRect 10 10 20 20] (by decide) (by decide) (by decide)
      (by decide)
      ⟨cvRect 10 10 20 20, by simp, by rw [hp, f2]; decide⟩

/-- C2 (counterexample).  `{10,0,1,1}` and `{0,10,2,2}` are both at distance
exactly 10 from `{0,0,0,0}`; the loop keeps the second one, not the first. -/
theorem tie_not_resolved_to_first :
    sq_distance (cvRect 10 0 1 1) (cvRect 0 0 0 0) =
        sq_distance (cvRect 0 10 2 2) (cvRect 0 0 0 0) ∧
      (track_fist (gst_handdetect_init true 320 240)
        [cvRect 10 0 1 1, cvRect 0 10 2 2]).best_r = some (cvRect 0 10 2 2) ∧
      (track_fist (gst_handdetect_init true 320 240)
        [cvRect 10 0 1 1, cvRect 0 10 2 2]).best_r ≠ some (cvRect 10 0 1 1) := by
  have d1 : distance (cvRect 10 0 1 1) (cvRect 0 0 0 0) = 10 :=
    distance_eq_of_bounds _ _ 10 (by decide) (by decide) (by decide) (by decide)
  have d2 : distance (cvRect 0 10 2 2) (cvRect 0 0 0 0) = 10 :=
    distance_eq_of_bounds _ _ 10 (by decide) (by decide) (by decide) (by decide)
  have hp : previous_target (gst_handdetect_init true 320 240) = cvRect 0 0 0 0 := rfl
  have hle1 : (10 : Int) ≤
      int_wrap ((gst_handdetect_init true 320 240).image_width +
        (gst_handdetect_init true 320 240).image_height) := by decide
  have hle2 : (10 : Int) ≤ (10 : Int) := le_refl _
  have hsel : (track_fist (gst_handdetect_init true 320 240)
      [cvRect 10 0 1 1, cvRect 0 10 2 2]).best_r = some (cvRect 0 10 2 2) := by
    rw [track_fist_best_r]
    simp only [best_fist_loop, hp, d1, d2, if_pos hle1, if_pos hle2]
  refine ⟨by decide, hsel, ?_⟩
  rw [hsel]
  decide

/-- C2 (amended).  Where the corners of the previous target and of the
candidates have coordinates of absolute value at most `2 ^ 24` and the `int`
sum `width + height` does not overflow: among the candidates that share the
minimum truncated distance (a minimum that lies within the seed
`width + height`), the loop selects the one encountered last: a candidate `a`
that is at least as near as every candidate before it and strictly nearer than
every candidate after it is the one left in `best_r` (and saved as `prev_r`). -/
theorem tie_resolves_to_last (filter : GstHanddetect) (before after : List CvRect)
    (a : CvRect)
    (hrange : ∀ r ∈ before ++ a :: after, r.in_range)
    (hprev : (previous_target filter).in_range) (hint : seed_in_range filter)
    (hseed : floor_distance a (previous_target filter) ≤
      filter.image_width + filter.image_height)
    (hbefore : ∀ r ∈ before,
      floor_distance a (previous_target filter) ≤ floor_distance r (previous_target filter))
    (hafter : ∀ r ∈ after,
      floor_distance a (previous_target filter) < floor_distance r (previous_target filter)) :
    (track_fist filter (before ++ a :: after)).best_r = some a ∧
      (track_fist filter (before ++ a :: after)).prev_r = some a := by
  have hd : ∀ r ∈ before ++ a :: after, distance r (previous_target filter) =
      floor_distance r (previous_target filter) :=
    fun r hr => distance_eq_floor_distance r _ (hrange r hr) hprev
  have hma : a ∈ before ++ a :: after :=
    List.mem_append_right _ (List.mem_cons_self _ _)
  have h := best_fist_loop_last_wins (previous_target filter) before after a
    (int_wrap (filter.image_width + filter.image_height)) filter.best_r
    (by rw [hd a hma, seed_eq_of_in_range filter hint]; exact hseed)
    (fun r hr => by
      rw [hd a hma, hd r (List.mem_append_left _ hr)]
      exact hbefore r hr)
    (fun r hr => by
      rw [hd a hma, hd r (List.mem_append_right _ (List.mem_cons_of_mem _ hr))]
      exact hafter r hr)
  have h2 : (track_fist filter (before ++ a :: after)).best_r = some a := by
    rw [track_fist_best_r, h]
  exact ⟨h2, h2⟩

/-- C2 (witness): of two candidates at distance 10 followed by a farther one,
the second is selected. -/
theorem tie_resolves_to_last_witness :
    (track_fist (gst_handdetect_init true 320 240)
        ([cvRect 10 0 1 1] ++ cvRect 0 10 2 2 :: [cvRect 50 50 3 3])).best_r =
        some (cvRect 0 10 2 2) ∧
      (track_fist (gst_handdetect_init true 320 240)
        ([cvRect 10 0 1 1] ++ cvRect 0 10 2 2 :: [cvRect 50 50 3 3])).prev_r =
        some (cvRect 0 10 2 2) := by
  have d1 : floor_distance (cvRect 10 0 1 1) (cvRect 0 0 0 0) = 10 :=
    floor_distance_eq_of_bounds _ _ 10 (by decide) (by decide)
  have d2 : floor_distance (cvRect 0 10 2 2) (cvRect 0 0 0 0) = 10 :=
    floor_distance_eq_of_bounds _ _ 10 (by decide) (by decide)
  have d3 : floor_distance (cvRect 50 50 3 3) (cvRect 0 0 0 0) = 70 :=
    floor_distance_eq_of_bounds _ _ 70 (by decide) (by decide)
  have hp : previous_target (gst_handdetect_init true 320 240) = cvRect 0 0 0 0 := rfl
  refine tie_resolves_to_last (gst_handdetect_init true 320 240) [cvRect 10 0 1 1]
    [cvRect 50 50 3 3] (cvRect 0 10 2 2) (by decide) (by decide) (by decide) ?_ ?_ ?_
  · rw [hp, d2]; decide
  · intro r hr
    rw [List.mem_singleton] at hr
    rw [hr, hp, d1, d2]
  · intro r hr
    rw [List.mem_singleton] at hr
    rw [hr, hp, d2, d3]; decide

/-- C3 (counterexample).  Frame 160 x 120, previous target `{600,400,40,40}`,
single candidate `{0,0,30,30}`: the truncated distance 721 exceeds the seed
280, so the candidate is rejected and `best_r`, `prev_r` keep the old target. -/
theorem single_candidate_rejected :
    (track_fist far_target_filter [cvRect 0 0 30 30]).best_r ≠ some (cvRect 0 0 30 30) ∧
      (track_fist far_target_filter [cvRect 0 0 30 30]).best_r =
        some (cvRect 600 400 40 40) ∧
      (track_fist far_target_filter [cvRect 0 0 30 30]).prev_r =
        some (cvRect 600 400 40 40) := by
  have d1 : distance (cvRect 0 0 30 30) (cvRect 600 400 40 40) = 721 :=
    distance_eq_of_bounds _ _ 721 (by decide) (by decide) (by decide) (by decide)
  have hp : previous_target far_target_filter = cvRect 600 400 40 40 := rfl
  have hgt : ¬ (721 : Int) ≤
      int_wrap (far_target_filter.image_width + far_target_filter.image_height) := by decide
  have hsel : (track_fist far_target_filter [cvRect 0 0 30 30]).best_r =
      some (cvRect 600 400 40 40) := by
    rw [track_fist_best_r]
    simp only [best_fist_loop, hp, d1, if_neg hgt]
    rfl
  refine ⟨?_, hsel, hsel⟩
  rw [hsel]
  decide

/-- C3 (amended).  For every frame size whose `int` sum `width + height` does
not overflow, every previous target and every single candidate `r`, both with
corner coordinates of absolute value at most `2 ^ 24`, such that the truncated
distance of `r` from the previous target is at most the seed `width + height`,
the loop selects `r`: `best_r = r`, then `prev_r = r`, and with a loaded
detector the per-frame call returns with that state. -/
theorem single_candidate_within_seed_wins (filter : GstHanddetect) (r : CvRect)
    (hrange : r.in_range) (hprev : (previous_target filter).in_range)
    (hint : seed_in_range filter)
    (hseed : floor_distance r (previous_target filter) ≤
      filter.image_width + filter.image_height) :
    (track_fist filter [r]).best_r = some r ∧ (track_fist filter [r]).prev_r = some r ∧
      ∀ cvRound : ℚ → Int, filter.cvCascade = true →
        ∃ out, gst_handdetect_transform_ip cvRound filter (some [r]) =
          some (track_fist filter [r], out) := by
  have hsel : (track_fist filter [r]).best_r = some r :=
    track_fist_single filter r (by
      rw [distance_eq_floor_distance r _ hrange hprev, seed_eq_of_in_range filter hint]
      exact hseed)
  refine ⟨hsel, hsel, ?_⟩
  intro cvRound hc
  simp only [gst_handdetect_transform_ip, hc, if_true, hsel]
  exact ⟨_, rfl⟩

/-- C3 (witness): first frame of a 320 x 240 stream with the single candidate
`{100,100,20,20}`. -/
theorem single_candidate_within_seed_wins_witness :
    (track_fist (gst_handdetect_init true 320 240) [cvRect 100 100 20 20]).best_r =
        some (cvRect 100 100 20 20) ∧
      (track_fist (gst_handdetect_init true 320 240) [cvRect 100 100 20 20]).prev_r =
        some (cvRect 100 100 20 20) ∧
      ∀ cvRound : ℚ → Int, (gst_handdetect_init true 320 240).cvCascade = true →
        ∃ out, gst_handdetect_transform_ip cvRound (gst_handdetect_init true 320 240)
            (some [cvRect 100 100 20 20]) =
          some (track_fist (gst_handdetect_init true 320 240) [cvRect 100 100 20 20],
            out) := by
  have d1 : floor_distance (cvRect 100 100 20 20) (cvRect 0 0 0 0) = 141 :=
    floor_distance_eq_of_bounds _ _ 141 (by decide) (by decide)
  have hp : previous_target (gst_handdetect_init true 320 240) = cvRect 0 0 0 0 := rfl
  exact single_candidate_within_seed_wins (gst_handdetect_init true 320 240)
    (cvRect 100 100 20 20) (by decide) (by decide) (by decide) (by rw [hp, d1]; decide)

/-! ## Frames without candidates (C4) and the stored pointer (C5) -/

theorem transform_ip_no_candidates (cvRound : ℚ → Int) (filter : GstHanddetect)
    (hands : Option (List CvRect)) (h : candidates hands = []) :
    gst_handdetect_transform_ip cvRound filter hands =
      some (filter, { posted := [], drawn := [] }) := by
  unfold gst_handdetect_transform_ip
  cases hands with
  | none => simp
  | some l =>
    cases l with
    | nil => simp
    | cons a rest => simp [candidates] at h


theorem transform_ip_not_loaded (cvRound : ℚ → Int) (filter : GstHanddetect)
    (hands : Option (List CvRect)) (hc : filter.cvCascade = false) :
    gst_handdetect_transform_ip cvRound filter hands =
      some (filter, { posted := [], drawn := [] }) := by
  simp [gst_handdetect_transform_ip, hc]


theorem transform_ip_returns (cvRound : ℚ → Int) (filter : GstHanddetect) (a : CvRect)
    (rest : List CvRect) (best : CvRect) (hc : filter.cvCascade = true)
    (hb : (track_fist filter (a :: rest)).best_r = some best) :
    ∃ out, gst_handdetect_transform_ip cvRound filter (some (a :: rest)) =
      some (track_fist filter (a :: rest), out) := by
  simp only [gst_handdetect_transform_ip, hc, if_true, hb]
  exact ⟨_, rfl⟩


/-- C4.  For every element state and configuration and every frame whose
candidate sequence is empty (`hands` is `NULL` or has no element), the per-frame
call returns with the element state, in particular `prev_r` and `best_r`,
unchanged, posts no message and draws nothing. -/
theorem empty_frame_is_noop (cvRound : ℚ → Int) (filter : GstHanddetect)
    (hands : Option (List CvRect)) (hempty : candidates hands = []) :
    ∃ filter' out, gst_handdetect_transform_ip cvRound filter hands = some (filter', out) ∧
      filter' = filter ∧ filter'.prev_r = filter.prev_r ∧ filter'.best_r = filter.best_r ∧
      out.posted = [] ∧ out.drawn = [] :=
  ⟨filter, { posted := [], drawn := [] },
    transform_ip_no_candidates cvRound filter hands hempty, rfl, rfl, rfl, rfl, rfl⟩

/-- C4 (witness): an empty sequence arriving while `{600,400,40,40}` is stored. -/
theorem empty_frame_is_noop_witness :
    ∃ filter' out,
      gst_handdetect_transform_ip (fun _ => 0) far_target_filter (some []) =
        some (filter', out) ∧
      filter' = far_target_filter ∧ filter'.prev_r = far_target_filter.prev_r ∧
      filter'.best_r = far_target_filter.best_r ∧ out.posted = [] ∧ out.drawn = [] :=
  empty_frame_is_noop (fun _ => 0) far_target_filter (some []) rfl

/-- C5 (failing input).  Second frame of a 320 x 240 stream whose first frame
selected element 0 of its sequence, `{100,100,20,20}`; `hands` is now
`[{150,100,20,20}, {104,100,20,20}]`.  `prev_r` is the address of element 0 in
the detector storage, which line 488 has cleared and line 496 has refilled
before line 526 reads it.  Were the rectangle of the first frame still there
the call would select `{104,100,20,20}`, the candidate nearest to it; with the
first element of the new sequence at that address the call selects
`{150,100,20,20}`.  The selection follows the present contents of the storage,
not the target of the earlier frame. -/
theorem stored_target_not_carried :
    (track_fist (second_frame_filter (cvRect 100 100 20 20))
        [cvRect 150 100 20 20, cvRect 104 100 20 20]).best_r =
        some (cvRect 104 100 20 20) ∧
      (track_fist (second_frame_filter (cvRect 150 100 20 20))
        [cvRect 150 100 20 20, cvRect 104 100 20 20]).best_r =
        some (cvRect 150 100 20 20) := by
  have d1 : distance (cvRect 150 100 20 20) (cvRect 100 100 20 20) = 50 :=
    distance_eq_of_bounds _ _ 50 (by decide) (by decide) (by decide) (by decide)
  have d2 : distance (cvRect 104 100 20 20) (cvRect 100 100 20 20) = 4 :=
    distance_eq_of_bounds _ _ 4 (by decide) (by decide) (by decide) (by decide)
  have d3 : distance (cvRect 150 100 20 20) (cvRect 150 100 20 20) = 0 :=
    distance_eq_of_bounds _ _ 0 (by decide) (by decide) (by decide) (by decide)
  have d4 : distance (cvRect 104 100 20 20) (cvRect 150 100 20 20) = 46 :=
    distance_eq_of_bounds _ _ 46 (by decide) (by decide) (by decide) (by decide)
  have hp1 : previous_target (second_frame_filter (cvRect 100 100 20 20)) =
      cvRect 100 100 20 20 := rfl
  have hp2 : previous_target (second_frame_filter (cvRect 150 100 20 20)) =
      cvRect 150 100 20 20 := rfl
  have s1 : int_wrap ((second_frame_filter (cvRect 100 100 20 20)).image_width +
      (second_frame_filter (cvRect 100 100 20 20)).image_height) = 560 := by decide
  have s2 : int_wrap ((second_frame_filter (cvRect 150 100 20 20)).image_width +
      (second_frame_filter (cvRect 150 100 20 20)).image_height) = 560 := by decide
  have a1 : (50 : Int) ≤ 560 := by decide
  have a2 : (4 : Int) ≤ 50 := by decide
  have a3 : (0 : Int) ≤ 560 := by decide
  have a4 : ¬ (46 : Int) ≤ 0 := by decide
  constructor
  · rw [track_fist_best_r]
    simp only [best_fist_loop, hp1, s1, d1, d2, if_pos a1, if_pos a2]
  · rw [track_fist_best_r]
    simp only [best_fist_loop, hp2, s2, d3, d4, if_pos a3, if_neg a4]

/-! ## The region-of-interest gate (C6, C7) -/

theorem to_uint_of_nonneg (i : Int) (h0 : 0 ≤ i) (h1 : i < 2 ^ 32) :
    ((to_uint i : Nat) : Int) = i := by
  unfold to_uint
  rw [Int.emod_eq_of_lt h0 h1, Int.toNat_of_nonneg h0]

theorem uint_add_of_lt (a b : Nat) (h : a + b < 2 ^ 32) : uint_add a b = a + b := by
  unfold uint_add
  exact Nat.mod_eq_of_lt h

theorem roi_gate_eq_true_iff (filter : GstHanddetect) (c : CvPoint) :
    roi_gate filter c = true ↔
      ((filter.roi_x ≤ to_uint c.x ∧ to_uint c.x ≤ uint_add filter.roi_x filter.roi_width) ∧
        (filter.roi_y ≤ to_uint c.y ∧
          to_uint c.y ≤ uint_add filter.roi_y filter.roi_height)) ∨
      roi_unset filter := by
  unfold roi_gate roi_unset
  simp only [Bool.or_eq_true, Bool.and_eq_true, decide_eq_true_eq, ge_iff_le]
  tauto

/-- C6 (counterexample).  With the region `{100, 100, 4294967246, 4294967246}`
the unsigned sums `roi_x + roi_width` and `roi_y + roi_height` wrap to 50: the
center `(150,150)` of `{140,140,20,20}` lies in the interval of the claim but
the gate is false.  With the region `{4294967295, 0, 0, 10}` the center
`(-1, 5)` of `{-1,5,0,0}` is compared as the unsigned value 4294967295: it lies
outside the interval of the claim but the gate is true. -/
theorem roi_gate_not_interval :
    (¬ roi_unset (roi_filter 100 100 4294967246 4294967246) ∧
        in_region_spec (roi_filter 100 100 4294967246 4294967246)
          (center_point (cvRect 140 140 20 20)) ∧
        roi_gate (roi_filter 100 100 4294967246 4294967246)
          (center_point (cvRect 140 140 20 20)) = false) ∧
      (¬ roi_unset (roi_filter 4294967295 0 0 10) ∧
        ¬ in_region_spec (roi_filter 4294967295 0 0 10) (center_point (cvRect (-1) 5 0 0)) ∧
        roi_gate (roi_filter 4294967295 0 0 10) (center_point (cvRect (-1) 5 0 0)) = true) := by
  refine ⟨⟨by decide, by decide, by decide⟩, ⟨by decide, by decide, by decide⟩⟩

/-- C6 (amended).  For every region of interest other than `{0,0,0,0}` whose sums
`roi.x + roi.width` and `roi.y + roi.height` do not exceed `UINT_MAX`, and every
target whose center `(cx, cy) = (x + width/2, y + height/2)` has non-negative
`int` coordinates, the gate condition is true if and only if
`roi.x <= cx <= roi.x + roi.width` and `roi.y <= cy <= roi.y + roi.height`,
both ends inclusive on both axes. -/
theorem roi_gate_inclusive (filter : GstHanddetect) (best_r : CvRect)
    (hne : ¬ roi_unset filter)
    (hx : filter.roi_x + filter.roi_width < 2 ^ 32)
    (hy : filter.roi_y + filter.roi_height < 2 ^ 32)
    (hcx : 0 ≤ (center_point best_r).x ∧ (center_point best_r).x < 2 ^ 31)
    (hcy : 0 ≤ (center_point best_r).y ∧ (center_point best_r).y < 2 ^ 31) :
    roi_gate filter (center_point best_r) = true ↔
      in_region_spec filter (center_point best_r) := by
  have ux := to_uint_of_nonneg (center_point best_r).x hcx.1 (by omega)
  have uy := to_uint_of_nonneg (center_point best_r).y hcy.1 (by omega)
  rw [roi_gate_eq_true_iff, uint_add_of_lt _ _ hx, uint_add_of_lt _ _ hy]
  unfold in_region_spec
  constructor
  · rintro (h | h)
    · omega
    · exact absurd h hne
  · intro h
    left
    omega

/-- C6 (witness): the region `{50,50,100,100}` accepts the center `(150,150)`
of `{140,140,20,20}`, which lies on its right and lower edge, and rejects the
center `(151,150)` of `{141,140,20,20}`. -/
theorem roi_gate_inclusive_witness :
    roi_gate (roi_filter 50 50 100 100) (center_point (cvRect 140 140 20 20)) = true ∧
      roi_gate (roi_filter 50 50 100 100) (center_point (cvRect 141 140 20 20)) = false ∧
      center_point (cvRect 140 140 20 20) = cvPoint 150 150 ∧
      center_point (cvRect 141 140 20 20) = cvPoint 151 150 := by
  have h1 := roi_gate_inclusive (roi_filter 50 50 100 100) (cvRect 140 140 20 20)
    (by decide) (by decide) (by decide) (by decide) (by decide)
  have h2 := roi_gate_inclusive (roi_filter 50 50 100 100) (cvRect 141 140 20 20)
    (by decide) (by decide) (by decide) (by decide) (by decide)
  refine ⟨h1.mpr (by decide), ?_, by decide, by decide⟩
  cases hg : roi_gate (roi_filter 50 50 100 100) (center_point (cvRect 141 140 20 20)) with
  | false => rfl
  | true => exact absurd (h2.mp hg) (by decide)

/-- C7.  When `roi_x = roi_y = roi_width = roi_height = 0` the gate condition is
true for every target, whatever its `x`, `y`, `width` and `height`. -/
theorem unrestricted_roi_accepts (filter : GstHanddetect) (best_r : CvRect)
    (hroi : roi_unset filter) : roi_gate filter (center_point best_r) = true :=
  (roi_gate_eq_true_iff filter (center_point best_r)).mpr (Or.inr hroi)

/-- C7 (witness): the default region accepts a target centered at
`(50010, 70010)`, far from the origin. -/
theorem unrestricted_roi_accepts_witness :
    roi_unset (gst_handdetect_init true 320 240) ∧
      center_point (cvRect 50000 70000 20 20) = cvPoint 50010 70010 ∧
      roi_gate (gst_handdetect_init true 320 240)
        (center_point (cvRect 50000 70000 20 20)) = true :=
  ⟨by decide, by decide,
    unrestricted_roi_accepts (gst_handdetect_init true 320 240) (cvRect 50000 70000 20 20)
      (by decide)⟩

/-! ## Messages and the overlay (C8 - C10) -/

theorem transform_ip_selected (cvRound : ℚ → Int) (filter : GstHanddetect) (a : CvRect)
    (rest : List CvRect) (best : CvRect) (hc : filter.cvCascade = true)
    (hb : (track_fist filter (a :: rest)).best_r = some best) :
    gst_handdetect_transform_ip cvRound filter (some (a :: rest)) =
      some (track_fist filter (a :: rest),
        { posted := if roi_gate filter (center_point best) then [detected_hand_info best]
            else []
          drawn := if filter.display then [marker cvRound best] else [] }) := by
  simp only [gst_handdetect_transform_ip, hc, if_true, hb]
  rfl

theorem transform_ip_aborts (cvRound : ℚ → Int) (filter : GstHanddetect) (a : CvRect)
    (rest : List CvRect) (hc : filter.cvCascade = true)
    (hb : (track_fist filter (a :: rest)).best_r = none) :
    gst_handdetect_transform_ip cvRound filter (some (a :: rest)) = none := by
  simp only [gst_handdetect_transform_ip, hc, if_true, hb]

theorem posted_by_display (cvRound : ℚ → Int) (filter : GstHanddetect)
    (hands : Option (List CvRect)) (d : Bool) :
    posted_by (gst_handdetect_transform_ip cvRound { filter with display := d } hands) =
      posted_by (gst_handdetect_transform_ip cvRound filter hands) := by
  rcases Bool.eq_false_or_eq_true filter.cvCascade with hc | hc
  swap
  · rw [transform_ip_not_loaded cvRound filter hands hc,
      transform_ip_not_loaded cvRound { filter with display := d } hands hc]
    rfl
  · by_cases he : candidates hands = []
    · rw [transform_ip_no_candidates cvRound filter hands he,
        transform_ip_no_candidates cvRound { filter with display := d } hands he]
      rfl
    · cases hands with
      | none => exact absurd rfl he
      | some l =>
        cases l with
        | nil => exact absurd rfl he
        | cons a rest =>
          cases hb : (track_fist filter (a :: rest)).best_r with
          | none =>
            rw [transform_ip_aborts cvRound filter a rest hc hb,
              transform_ip_aborts cvRound { filter with display := d } a rest hc hb]
          | some best =>
            rw [transform_ip_selected cvRound filter a rest best hc hb,
              transform_ip_selected cvRound { filter with display := d } a rest best hc hb]
            rfl

theorem event_message_of_selected (cvRound : ℚ → Int) (filter : GstHanddetect)
    (hands : Option (List CvRect)) (m : Message)
    (hm : m ∈ posted_by (gst_handdetect_transform_ip cvRound filter hands)) :
    m.gesture = "fist" ∧
      ∃ best, (track_fist filter (candidates hands)).best_r = some best ∧
        m = detected_hand_info best := by
  rcases Bool.eq_false_or_eq_true filter.cvCascade with hc | hc
  swap
  · rw [transform_ip_not_loaded cvRound filter hands hc] at hm
    simp [posted_by] at hm
  · by_cases he : candidates hands = []
    · rw [transform_ip_no_candidates cvRound filter hands he] at hm
      simp [posted_by] at hm
    · cases hands with
      | none => exact absurd rfl he
      | some l =>
        cases l with
        | nil => exact absurd rfl he
        | cons a rest =>
          cases hb : (track_fist filter (a :: rest)).best_r with
          | none =>
            rw [transform_ip_aborts cvRound filter a rest hc hb] at hm
            simp [posted_by] at hm
          | some best =>
            rw [transform_ip_selected cvRound filter a rest best hc hb] at hm
            cases hg : roi_gate filter (center_point best) with
            | false => simp [posted_by, hg] at hm
            | true =>
              simp only [posted_by, hg, if_true, List.mem_singleton] at hm
              subst hm
              exact ⟨rfl, best, hb, rfl⟩

/-- C8.  For every frame the per-frame call posts exactly one message, with
gesture `"fist"` and built from the selected target, if the detector is loaded,
the candidate sequence is non-empty and the selected target passes the gate, and
posts no message otherwise; the messages posted do not depend on the `display`
flag. -/
theorem event_emission_count (cvRound : ℚ → Int) (filter : GstHanddetect)
    (hands : Option (List CvRect)) :
    (posted_by (gst_handdetect_transform_ip cvRound filter hands)).length =
        (if qualifying_frame filter hands then 1 else 0) ∧
      (∀ m ∈ posted_by (gst_handdetect_transform_ip cvRound filter hands),
        m.gesture = "fist" ∧
          ∃ best, (track_fist filter (candidates hands)).best_r = some best ∧
            m = detected_hand_info best) ∧
      ∀ d : Bool,
        posted_by (gst_handdetect_transform_ip cvRound { filter with display := d } hands) =
          posted_by (gst_handdetect_transform_ip cvRound filter hands) := by
  refine ⟨?_, ?_, posted_by_display cvRound filter hands⟩
  · cases hc : filter.cvCascade with
    | false =>
      rw [transform_ip_not_loaded cvRound filter hands hc]
      simp [posted_by, qualifying_frame, hc]
    | true =>
      by_cases he : candidates hands = []
      · rw [transform_ip_no_candidates cvRound filter hands he]
        simp [posted_by, qualifying_frame, he]
      · cases hands with
        | none => exact absurd rfl he
        | some l =>
          cases l with
          | nil => exact absurd rfl he
          | cons a rest =>
            cases hb : (track_fist filter (a :: rest)).best_r with
            | none =>
              rw [transform_ip_aborts cvRound filter a rest hc hb]
              simp [posted_by, qualifying_frame, candidates, hb]
            | some best =>
              rw [transform_ip_selected cvRound filter a rest best hc hb]
              cases hg : roi_gate filter (center_point best) <;>
                simp [posted_by, qualifying_frame, candidates, hb, hc, hg]
  · intro m hm
    exact event_message_of_selected cvRound filter hands m hm

theorem double_to_uint_half (x w : Int) (hx : 0 ≤ x) (hx2 : x < 2 ^ 31) (hw : 0 ≤ w)
    (hw2 : w < 2 ^ 31) :
    ((double_to_uint ((x : ℚ) + (w : ℚ) * 0.5) : Nat) : Int) = x + w / 2 := by
  have hv : (0 : ℚ) ≤ (x : ℚ) + (w : ℚ) * 0.5 := by
    have h1 : (0 : ℚ) ≤ (x : ℚ) := by exact_mod_cast hx
    have h2 : (0 : ℚ) ≤ (w : ℚ) := by exact_mod_cast hw
    positivity
  have hhalf : (w : ℚ) * 0.5 = (w : ℚ) / ((2 : ℕ) : ℚ) := by norm_num; ring
  have hfloor : Rat.floor ((x : ℚ) + (w : ℚ) * 0.5) = x + w / 2 := by
    show ⌊(x : ℚ) + (w : ℚ) * 0.5⌋ = x + w / 2
    rw [Int.floor_int_add, hhalf, Rat.floor_intCast_div_natCast]
    rfl
  unfold double_to_uint trunc
  rw [if_pos hv, hfloor]
  exact to_uint_of_nonneg _ (by omega) (by omega)

theorem circle_of_selected (cvRound : ℚ → Int) (filter : GstHanddetect)
    (hands : Option (List CvRect)) (c : Circle)
    (hc : c ∈ drawn_by (gst_handdetect_transform_ip cvRound filter hands)) :
    filter.display = true ∧ filter.cvCascade = true ∧ candidates hands ≠ [] ∧
      ∃ best, (track_fist filter (candidates hands)).best_r = some best ∧
        c = marker cvRound best := by
  rcases Bool.eq_false_or_eq_true filter.cvCascade with hl | hl
  swap
  · rw [transform_ip_not_loaded cvRound filter hands hl] at hc
    simp [drawn_by] at hc
  · by_cases he : candidates hands = []
    · rw [transform_ip_no_candidates cvRound filter hands he] at hc
      simp [drawn_by] at hc
    · cases hands with
      | none => exact absurd rfl he
      | some l =>
        cases l with
        | nil => exact absurd rfl he
        | cons a rest =>
          cases hb : (track_fist filter (a :: rest)).best_r with
          | none =>
            rw [transform_ip_aborts cvRound filter a rest hl hb] at hc
            simp [drawn_by] at hc
          | some best =>
            rw [transform_ip_selected cvRound filter a rest best hl hb] at hc
            rcases Bool.eq_false_or_eq_true filter.display with hd | hd
            · simp only [drawn_by, hd, if_true, List.mem_singleton] at hc
              exact ⟨hd, hl, he, best, hb, hc⟩
            · simp [drawn_by, hd] at hc

/-- C10.  For every input, if the `display` flag is false, or the candidate
sequence is empty, or the detector is not loaded, the per-frame call makes no
`cvCircle` call and the pixel contents of the frame after the call equal those
before it; a circle is drawn only when `display` is true, the detector is loaded
and a target was selected from a non-empty candidate sequence, and it is the
marker of that target. -/
theorem frame_mutated_only_by_overlay (cvRound : ℚ → Int) (filter : GstHanddetect)
    (hands : Option (List CvRect)) :
    ((filter.display = false ∨ candidates hands = [] ∨ filter.cvCascade = false) →
        drawn_by (gst_handdetect_transform_ip cvRound filter hands) = [] ∧
        ∀ (filter' : GstHanddetect) (out : Output),
          gst_handdetect_transform_ip cvRound filter hands = some (filter', out) →
          ∀ (Img : Type) (cvCircle : Img → Circle → Img) (img : Img),
            frame_after cvCircle img out = img) ∧
      ∀ c ∈ drawn_by (gst_handdetect_transform_ip cvRound filter hands),
        filter.display = true ∧ filter.cvCascade = true ∧ candidates hands ≠ [] ∧
          ∃ best, (track_fist filter (candidates hands)).best_r = some best ∧
            c = marker cvRound best := by
  refine ⟨?_, fun c hc => circle_of_selected cvRound filter hands c hc⟩
  intro h
  have hnil : drawn_by (gst_handdetect_transform_ip cvRound filter hands) = [] := by
    cases hd : drawn_by (gst_handdetect_transform_ip cvRound filter hands) with
    | nil => rfl
    | cons c rest =>
      have hc : c ∈ drawn_by (gst_handdetect_transform_ip cvRound filter hands) := by
        rw [hd]; exact List.mem_cons_self _ _
      obtain ⟨h1, h2, h3, _⟩ := circle_of_selected cvRound filter hands c hc
      rcases h with h | h | h
      · rw [h] at h1; cases h1
      · exact absurd h h3
      · rw [h] at h2; cases h2
  refine ⟨hnil, ?_⟩
  intro filter' out hrun Img cvCircle img
  rw [hrun] at hnil
  have hout : out.drawn = [] := hnil
  unfold frame_after
  rw [hout]
  rfl

/-- C10 (witness): with `display` switched off a target is found in the frame,
the message is posted and nothing is drawn. -/
theorem frame_mutated_only_by_overlay_witness :
    drawn_by (gst_handdetect_transform_ip cvRound_lrint
        { gst_handdetect_init true 320 240 with display := false }
        (some [cvRect 100 100 20 20])) = [] ∧
      posted_by (gst_handdetect_transform_ip cvRound_lrint
        { gst_handdetect_init true 320 240 with display := false }
        (some [cvRect 100 100 20 20])) = [detected_hand_info (cvRect 100 100 20 20)] := by
  have d1 : distance (cvRect 100 100 20 20) (cvRect 0 0 0 0) = 141 :=
    distance_eq_of_bounds _ _ 141 (by decide) (by decide) (by decide) (by decide)
  have hle : (141 : Int) ≤ int_wrap ((320 : Int) + 240) := by decide
  have hb : (track_fist { gst_handdetect_init true 320 240 with display := false }
      [cvRect 100 100 20 20]).best_r = some (cvRect 100 100 20 20) := by
    simp only [track_fist, best_fist_loop, gst_handdetect_init, Option.getD_none, d1,
      if_pos hle]
  have hg : roi_gate { gst_handdetect_init true 320 240 with display := false }
      (center_point (cvRect 100 100 20 20)) = true := by decide
  refine ⟨((frame_mutated_only_by_overlay cvRound_lrint
    { gst_handdetect_init true 320 240 with display := false }
    (some [cvRect 100 100 20 20])).1 (Or.inl rfl)).1, ?_⟩
  rw [transform_ip_selected cvRound_lrint _ _ _ _ rfl hb]
  simp only [posted_by, hg, if_true]

/-! ## The overlay marker (C11) -/

theorem round_half_even_nearest (v : ℚ) : |((round_half_even v : Int) : ℚ) - v| ≤ 1 / 2 := by
  have h1 : ((Rat.floor v : Int) : ℚ) ≤ v := Int.floor_le v
  have h2 : v < ((Rat.floor v : Int) : ℚ) + 1 := Int.lt_floor_add_one v
  rw [abs_le]
  unfold round_half_even
  split_ifs with ha hb hc
  · constructor <;> linarith
  · push_cast
    constructor <;> linarith
  · constructor <;> linarith
  · push_cast
    constructor <;> linarith

theorem cvRound_lrint_nearest : rounds_to_nearest cvRound_lrint := by
  intro v
  constructor
  · unfold cvRound_lrint
    split_ifs with h
    · exact h
    · constructor <;> decide
  · intro hlo hhi
    have hn := round_half_even_nearest v
    rw [abs_le] at hn
    have h1 : ((-2147483649 : Int) : ℚ) < ((round_half_even v : Int) : ℚ) := by
      push_cast
      linarith [hn.1]
    have h2 : ((round_half_even v : Int) : ℚ) < ((2147483648 : Int) : ℚ) := by
      push_cast
      linarith [hn.2]
    have h1' : (-2147483649 : Int) < round_half_even v := Int.cast_lt.mp h1
    have h2' : round_half_even v < (2147483648 : Int) := Int.cast_lt.mp h2
    unfold cvRound_lrint
    rw [if_pos ⟨by omega, h2'⟩, abs_le]
    exact hn

theorem nearest_of_ratio (cvRound : ℚ → Int) (hround : rounds_to_nearest cvRound)
    (n d : Int) (hd : 0 < d) (hlo : -2147483648 * d ≤ n) (hhi : n ≤ 2147483647 * d) :
    -d ≤ 2 * (d * cvRound ((n : ℚ) / (d : ℚ)) - n) ∧
      2 * (d * cvRound ((n : ℚ) / (d : ℚ)) - n) ≤ d := by
  have hd' : (0 : ℚ) < (d : ℚ) := by exact_mod_cast hd
  have hlo' : (-2147483648 : ℚ) ≤ (n : ℚ) / (d : ℚ) := by
    rw [le_div_iff₀ hd']
    exact_mod_cast hlo
  have hhi' : (n : ℚ) / (d : ℚ) ≤ 2147483647 := by
    rw [div_le_iff₀ hd']
    exact_mod_cast hhi
  have h := (hround ((n : ℚ) / (d : ℚ))).2 hlo' hhi'
  rw [abs_le] at h
  have e : (n : ℚ) / (d : ℚ) * (d : ℚ) = (n : ℚ) := by field_simp
  have l1 : -(d : ℚ) ≤ 2 * ((d : ℚ) * (cvRound ((n : ℚ) / (d : ℚ)) : ℚ) - (n : ℚ)) := by
    nlinarith [h.1, h.2]
  have l2 : 2 * ((d : ℚ) * (cvRound ((n : ℚ) / (d : ℚ)) : ℚ) - (n : ℚ)) ≤ (d : ℚ) := by
    nlinarith [h.1, h.2]
  constructor
  · exact_mod_cast l1
  · exact_mod_cast l2

theorem half_sum_eq (x w : Int) :
    (x : ℚ) + (w : ℚ) * 0.5 = ((2 * x + w : Int) : ℚ) / ((2 : Int) : ℚ) := by
  push_cast
  norm_num
  ring

theorem quarter_eq (n : Int) : (n : ℚ) * 0.25 = (n : ℚ) / ((4 : Int) : ℚ) := by
  push_cast
  norm_num
  ring

theorem cvRound_half_bounds (cvRound : ℚ → Int) (hround : rounds_to_nearest cvRound)
    (x w : Int) (hlo : -4294967296 ≤ 2 * x + w) (hhi : 2 * x + w ≤ 4294967294) :
    (x + w / 2 ≤ cvRound ((x : ℚ) + (w : ℚ) * 0.5) ∧
        cvRound ((x : ℚ) + (w : ℚ) * 0.5) ≤ x + w / 2 + 1) ∧
      (w % 2 = 0 → cvRound ((x : ℚ) + (w : ℚ) * 0.5) = x + w / 2) := by
  rw [half_sum_eq]
  obtain ⟨h1, h2⟩ := nearest_of_ratio cvRound hround (2 * x + w) 2 (by decide)
    (by omega) (by omega)
  refine ⟨⟨by omega, by omega⟩, fun h => by omega⟩

theorem cvRound_quarter_bounds (cvRound : ℚ → Int) (hround : rounds_to_nearest cvRound)
    (n : Int) (hlo : -8589934592 ≤ n) (hhi : n ≤ 8589934588) :
    (n / 4 ≤ cvRound ((n : ℚ) * 0.25) ∧ cvRound ((n : ℚ) * 0.25) ≤ n / 4 + 1) ∧
      (n % 4 = 0 ∨ n % 4 = 1 → cvRound ((n : ℚ) * 0.25) = n / 4) ∧
      (n % 4 = 3 → cvRound ((n : ℚ) * 0.25) = n / 4 + 1) := by
  rw [quarter_eq]
  obtain ⟨h1, h2⟩ := nearest_of_ratio cvRound hround n 4 (by decide) (by omega) (by omega)
  refine ⟨⟨by omega, by omega⟩, fun h => by omega, fun h => by omega⟩

theorem drawn_by_selected (cvRound : ℚ → Int) (filter : GstHanddetect) (a : CvRect)
    (rest : List CvRect) (best : CvRect) (hc : filter.cvCascade = true)
    (hd : filter.display = true)
    (hb : (track_fist filter (a :: rest)).best_r = some best) :
    drawn_by (gst_handdetect_transform_ip cvRound filter (some (a :: rest))) =
      [marker cvRound best] := by
  rw [transform_ip_selected cvRound filter a rest best hc hb]
  simp only [drawn_by, hd, if_true]

/-- C11 (counterexample).  On the first frame of a 320 x 240 stream with
`display` enabled the target `{1,1,1,2}` is drawn with center `(2,2)` and radius
1 (`cvRound (1.5) = 2`, `cvRound (0.75) = 1`), while the truncated center point
of the gate is `(1,2)` and `(1 + 2) / 4` truncates to 0; the radius is 1 for
every `cvRound` that returns a nearest integer. -/
theorem marker_not_truncated :
    drawn_by (gst_handdetect_transform_ip cvRound_lrint (gst_handdetect_init true 320 240)
        (some [cvRect 1 1 1 2])) = [marker cvRound_lrint (cvRect 1 1 1 2)] ∧
      marker cvRound_lrint (cvRect 1 1 1 2) = { center := { x := 2, y := 2 }, radius := 1 } ∧
      center_point (cvRect 1 1 1 2) = cvPoint 1 2 ∧
      Int.tdiv ((cvRect 1 1 1 2).width + (cvRect 1 1 1 2).height) 4 = 0 ∧
      ∀ cvRound : ℚ → Int, rounds_to_nearest cvRound →
        (marker cvRound (cvRect 1 1 1 2)).radius = 1 := by
  have d1 : distance (cvRect 1 1 1 2) (cvRect 0 0 0 0) = 1 :=
    distance_eq_of_bounds _ _ 1 (by decide) (by decide) (by decide) (by decide)
  have hp : previous_target (gst_handdetect_init true 320 240) = cvRect 0 0 0 0 := rfl
  have hb : (track_fist (gst_handdetect_init true 320 240) [cvRect 1 1 1 2]).best_r =
      some (cvRect 1 1 1 2) :=
    track_fist_single _ _ (by rw [hp, d1]; decide)
  have hw : int_wrap ((cvRect 1 1 1 2).width + (cvRect 1 1 1 2).height) = 3 := by decide
  refine ⟨drawn_by_selected cvRound_lrint _ _ _ _ rfl rfl hb, ?_, by decide, by decide, ?_⟩
  · unfold marker
    rw [hw]
    norm_num [cvRound_lrint, round_half_even, cvRect, Rat.floor, int_wrap]
  · intro cvRound hround
    have h := (cvRound_quarter_bounds cvRound hround 3 (by decide) (by decide)).2.2
      (by decide)
    have e : (marker cvRound (cvRect 1 1 1 2)).radius =
        int_wrap (cvRound (((3 : Int) : ℚ) * 0.25)) := by
      unfold marker
      rw [hw]
    rw [e, h]
    decide

/-- C11 (amended).  For every target `{x, y, width, height}` with non-negative
fields, truncated center coordinates below `INT_MAX` and an `int` sum
`width + height` that does not overflow, drawn with `display` enabled, the
circle passed to `cvCircle` has center
`(cvRound (x + width * 0.5), cvRound (y + height * 0.5))` and radius
`cvRound ((width + height) * 0.25)`, where `cvRound` returns a nearest integer:
each center coordinate is the truncated coordinate of the center point of the
gate or one more, and equals it when the width (height) is even; the radius is
the truncated `(width + height) / 4` or one more, equals it when
`width + height` leaves remainder 0 or 1 modulo 4, and is one more when the
remainder is 3. -/
theorem marker_geometry (cvRound : ℚ → Int) (hround : rounds_to_nearest cvRound)
    (filter : GstHanddetect) (hands : Option (List CvRect)) (c : Circle) (best : CvRect)
    (hc : c ∈ drawn_by (gst_handdetect_transform_ip cvRound filter hands))
    (hb : (track_fist filter (candidates hands)).best_r = some best)
    (hx : 0 ≤ best.x) (hy : 0 ≤ best.y) (hw : 0 ≤ best.width) (hh : 0 ≤ best.height)
    (hcx : (center_point best).x < 2147483647) (hcy : (center_point best).y < 2147483647)
    (hsum : best.width + best.height < 2147483648) :
    filter.display = true ∧
      (c.center.x = cvRound ((best.x : ℚ) + (best.width : ℚ) * 0.5) ∧
        c.center.y = cvRound ((best.y : ℚ) + (best.height : ℚ) * 0.5) ∧
        c.radius = cvRound (((best.width + best.height : Int) : ℚ) * 0.25)) ∧
      (((center_point best).x ≤ c.center.x ∧ c.center.x ≤ (center_point best).x + 1) ∧
        (best.width % 2 = 0 → c.center.x = (center_point best).x)) ∧
      (((center_point best).y ≤ c.center.y ∧ c.center.y ≤ (center_point best).y + 1) ∧
        (best.height % 2 = 0 → c.center.y = (center_point best).y)) ∧
      ((Int.tdiv (best.width + best.height) 4 ≤ c.radius ∧
          c.radius ≤ Int.tdiv (best.width + best.height) 4 + 1) ∧
        ((best.width + best.height) % 4 = 0 ∨ (best.width + best.height) % 4 = 1 →
          c.radius = Int.tdiv (best.width + best.height) 4) ∧
        ((best.width + best.height) % 4 = 3 →
          c.radius = Int.tdiv (best.width + best.height) 4 + 1)) := by
  obtain ⟨hd, _, _, best', hb', hcm⟩ := circle_of_selected cvRound filter hands c hc
  rw [hb] at hb'
  cases hb'
  subst hcm
  have hcx' : (center_point best).x = best.x + best.width / 2 := by
    show best.x + Int.tdiv best.width 2 = _
    rw [Int.tdiv_eq_ediv hw (by decide)]
  have hcy' : (center_point best).y = best.y + best.height / 2 := by
    show best.y + Int.tdiv best.height 2 = _
    rw [Int.tdiv_eq_ediv hh (by decide)]
  have hr : Int.tdiv (best.width + best.height) 4 = (best.width + best.height) / 4 :=
    Int.tdiv_eq_ediv (by omega) (by decide)
  have hwrap : int_wrap (best.width + best.height) = best.width + best.height :=
    int_wrap_of_int _ (by omega) hsum
  have hint : ∀ v : ℚ, int_wrap (cvRound v) = cvRound v :=
    fun v => int_wrap_of_int _ (hround v).1.1 (hround v).1.2
  have hrad : (marker cvRound best).radius =
      cvRound (((best.width + best.height : Int) : ℚ) * 0.25) := by
    unfold marker
    rw [hwrap]
    exact hint _
  have hmx : (marker cvRound best).center.x =
      cvRound ((best.x : ℚ) + (best.width : ℚ) * 0.5) := hint _
  have hmy : (marker cvRound best).center.y =
      cvRound ((best.y : ℚ) + (best.height : ℚ) * 0.5) := hint _
  rw [hcx'] at hcx
  rw [hcy'] at hcy
  rw [hcx', hcy', hr, hrad, hmx, hmy]
  exact ⟨hd, ⟨rfl, rfl, rfl⟩,
    cvRound_half_bounds cvRound hround best.x best.width (by omega) (by omega),
    cvRound_half_bounds cvRound hround best.y best.height (by omega) (by omega),
    cvRound_quarter_bounds cvRound hround (best.width + best.height) (by omega) (by omega)⟩

/-- C11 (witness): the target `{100,100,20,20}` on the first frame of a
320 x 240 stream is drawn with center `(110,110)`, the center point of the gate,
and radius 10. -/
theorem marker_geometry_witness :
    drawn_by (gst_handdetect_transform_ip cvRound_lrint (gst_handdetect_init true 320 240)
        (some [cvRect 100 100 20 20])) = [marker cvRound_lrint (cvRect 100 100 20 20)] ∧
      (marker cvRound_lrint (cvRect 100 100 20 20)).center.x =
        (center_point (cvRect 100 100 20 20)).x ∧
      (marker cvRound_lrint (cvRect 100 100 20 20)).center.y =
        (center_point (cvRect 100 100 20 20)).y ∧
      (marker cvRound_lrint (cvRect 100 100 20 20)).radius = Int.tdiv (20 + 20) 4 := by
  have d1 : distance (cvRect 100 100 20 20) (cvRect 0 0 0 0) = 141 :=
    distance_eq_of_bounds _ _ 141 (by decide) (by decide) (by decide) (by decide)
  have hp : previous_target (gst_handdetect_init true 320 240) = cvRect 0 0 0 0 := rfl
  have hb : (track_fist (gst_handdetect_init true 320 240) [cvRect 100 100 20 20]).best_r =
      some (cvRect 100 100 20 20) :=
    track_fist_single _ _ (by rw [hp, d1]; decide)
  have hdrawn := drawn_by_selected cvRound_lrint (gst_handdetect_init true 320 240)
    (cvRect 100 100 20 20) [] (cvRect 100 100 20 20) rfl rfl hb
  have h := marker_geometry cvRound_lrint cvRound_lrint_nearest
    (gst_handdetect_init true 320 240) (some [cvRect 100 100 20 20])
    (marker cvRound_lrint (cvRect 100 100 20 20)) (cvRect 100 100 20 20)
    (by rw [hdrawn]; exact List.mem_singleton.mpr rfl) hb (by decide) (by decide)
    (by decide) (by decide) (by decide) (by decide) (by decide)
  exact ⟨hdrawn, h.2.2.1.2 (by decide), h.2.2.2.1.2 (by decide),
    h.2.2.2.2.2.1 (Or.inl (by decide))⟩

/-! ## The seed and candidates inside the frame (C12) -/

theorem int_sqrt_le_of_le_sq (n k : Int) (hk : 0 ≤ k) (h : n ≤ k * k) : Int.sqrt n ≤ k := by
  obtain ⟨m, hm⟩ := Int.eq_ofNat_of_zero_le hk
  subst hm
  unfold Int.sqrt
  have h1 : n.toNat ≤ m * m := by
    rw [Int.toNat_le]
    exact_mod_cast h
  have h2 : Nat.sqrt n.toNat ≤ m := by
    calc Nat.sqrt n.toNat ≤ Nat.sqrt (m * m) := Nat.sqrt_le_sqrt h1
      _ = m := Nat.sqrt_eq m
  exact_mod_cast h2


theorem floor_distance_le_seed (filter : GstHanddetect) (r prev_r : CvRect)
    (hr : in_frame filter r) (hp : in_frame filter prev_r) :
    floor_distance r prev_r ≤ filter.image_width + filter.image_height := by
  obtain ⟨⟨rx0, rx1⟩, ⟨ry0, ry1⟩⟩ := hr
  obtain ⟨⟨px0, px1⟩, ⟨py0, py1⟩⟩ := hp
  unfold floor_distance sq_distance
  apply int_sqrt_le_of_le_sq _ _ (by omega)
  have hx : (r.x - prev_r.x) ^ 2 ≤ filter.image_width ^ 2 := by
    apply sq_le_sq'
    · omega
    · omega
  have hy : (r.y - prev_r.y) ^ 2 ≤ filter.image_height ^ 2 := by
    apply sq_le_sq'
    · omega
    · omega
  have hw : 0 ≤ filter.image_width := by omega
  have hh : 0 ≤ filter.image_height := by omega
  nlinarith [mul_nonneg hw hh]

theorem best_fist_loop_index (prev_r : CvRect) (l : List CvRect) (m : Int)
    (b : Option CvRect) (h : ∃ r ∈ l, distance r prev_r ≤ m) :
    ∃ i best, l[i]? = some best ∧ (best_fist_loop prev_r l m b).2 = some best ∧
      (best_fist_loop prev_r l m b).1 = distance best prev_r ∧
      ∀ (j : Nat) (r : CvRect), l[j]? = some r → i < j → distance best prev_r < distance r prev_r := by
  induction l generalizing m b with
  | nil => obtain ⟨r, hr, _⟩ := h; cases hr
  | cons a rest ih =>
    simp only [best_fist_loop]
    by_cases ha : distance a prev_r ≤ m
    · simp only [if_pos ha]
      by_cases hrest : ∃ r ∈ rest, distance r prev_r ≤ distance a prev_r
      · obtain ⟨i, best, hi, h2, h1, hlast⟩ := ih (distance a prev_r) (some a) hrest
        refine ⟨i + 1, best, by rw [List.getElem?_cons_succ]; exact hi, h2, h1, ?_⟩
        intro j r hj hij
        cases j with
        | zero => omega
        | succ k =>
          rw [List.getElem?_cons_succ] at hj
          exact hlast k r hj (by omega)
      · have hrej : ∀ r ∈ rest, distance a prev_r < distance r prev_r := by
          intro r hr
          by_contra hn
          exact hrest ⟨r, hr, not_lt.mp hn⟩
        rw [best_fist_loop_rejects prev_r rest _ _ hrej]
        refine ⟨0, a, List.getElem?_cons_zero, rfl, rfl, ?_⟩
        intro j r hj hij
        cases j with
        | zero => omega
        | succ k =>
          rw [List.getElem?_cons_succ] at hj
          exact hrej r (List.getElem?_mem hj)
    · simp only [if_neg ha]
      obtain ⟨r, hr, hle⟩ := h
      rcases List.mem_cons.mp hr with h' | h'
      · subst h'; exact absurd hle ha
      · obtain ⟨i, best, hi, h2, h1, hlast⟩ := ih m b ⟨r, h', hle⟩
        refine ⟨i + 1, best, by rw [List.getElem?_cons_succ]; exact hi, h2, h1, ?_⟩
        intro j r hj hij
        cases j with
        | zero => omega
        | succ k =>
          rw [List.getElem?_cons_succ] at hj
          exact hlast k r hj (by omega)

theorem distance_far_b :
    distance (cvRect 508389245 289368452 1 1) (cvRect 0 0 0 0) = 584973269 := by
  have r1 : round_double 258459624431670025 = 258459624431670016 := by
    rw [round_double_eval _ 5 (by norm_num) (by norm_num) (by norm_num)]
    norm_num
  have r2 : round_double 83734101012876304 = 83734101012876304 := by
    rw [round_double_eval _ 4 (by norm_num) (by norm_num) (by norm_num)]
    norm_num
  have r3 : round_double (258459624431670016 + 83734101012876304) = 342193725444546304 := by
    rw [round_double_eval _ 6 (by norm_num) (by norm_num) (by norm_num)]
    norm_num
  have s1 := sqrt_double_eval 342193725444546304 584973268 29 4907111444119551
    (by norm_num) (by norm_num) (by norm_num) (by norm_num) (by norm_num) (by norm_num)
  have w1 : (int_wrap ((cvRect 508389245 289368452 1 1).x - (cvRect 0 0 0 0).x) *
      int_wrap ((cvRect 508389245 289368452 1 1).x - (cvRect 0 0 0 0).x)).toNat =
      258459624431670025 := by decide
  have w2 : (int_wrap ((cvRect 508389245 289368452 1 1).y - (cvRect 0 0 0 0).y) *
      int_wrap ((cvRect 508389245 289368452 1 1).y - (cvRect 0 0 0 0).y)).toNat =
      83734101012876304 := by decide
  unfold distance
  rw [w1, w2, r1, r2, r3, s1, double_to_int_natCast_div]
  norm_num

theorem distance_far_a :
    distance (cvRect 584973268 0 1 1) (cvRect 0 0 0 0) = 584973268 := by
  have r1 : round_double 342193724274599824 = 342193724274599808 := by
    rw [round_double_eval _ 6 (by norm_num) (by norm_num) (by norm_num)]
    norm_num
  have r2 : round_double 0 = 0 := round_double_of_lt 0 (by norm_num)
  have r3 : round_double (342193724274599808 + 0) = 342193724274599808 := by
    rw [round_double_eval _ 6 (by norm_num) (by norm_num) (by norm_num)]
    norm_num
  have s1 := sqrt_double_eval 342193724274599808 584973267 29 4907111435730943
    (by norm_num) (by norm_num) (by norm_num) (by norm_num) (by norm_num) (by norm_num)
  have w1 : (int_wrap ((cvRect 584973268 0 1 1).x - (cvRect 0 0 0 0).x) *
      int_wrap ((cvRect 584973268 0 1 1).x - (cvRect 0 0 0 0).x)).toNat =
      342193724274599824 := by decide
  have w2 : (int_wrap ((cvRect 584973268 0 1 1).y - (cvRect 0 0 0 0).y) *
      int_wrap ((cvRect 584973268 0 1 1).y - (cvRect 0 0 0 0).y)).toNat = 0 := by decide
  unfold distance
  rw [w1, w2, r1, r2, r3, s1, double_to_int_natCast_div]
  norm_num


end Handdetect
